import Mathlib

/-!
Verification of the WeFlow report-generation pipeline.

The definitions below are a shallow embedding of the analytics engine in
`src/types/sns.ts` (`AnnualReportService`) and
`electron/services/dualReportService.ts` (`DualReportService`):
the content decoder, the per-session accumulators (streak, heatmap/midnight,
conversation/response, phrases), the fast-path/full-scan orchestration and the
ranking of frequent phrases.

External library calls that are not part of the repository (the `fzstd` frame
decompressor, Node's UTF-8 and base64 codecs) are passed in as parameters of
the embedding, collected in the `Ext` structure.  JavaScript `Map` objects are
embedded as insertion-ordered association lists, matching `Map` iteration
order.  Machine timestamps are epoch seconds as integers; local calendar time
is modelled with a fixed UTC offset `z` in seconds (the host's time-zone rules
beyond a fixed offset are not part of the source).
-/

namespace WeFlow

/-! ## Association lists: the embedding of JavaScript `Map` objects.

`Map.get` returns the first (unique) binding; `Map.set` overwrites in place,
keeping insertion order, and appends unknown keys. -/

/-- `Map.get(k)`: the value bound to `k`, if any. -/
def alGet? {V : Type} (m : List (String × V)) (k : String) : Option V :=
  match m with
  | [] => none
  | (k', v) :: rest => if k' = k then some v else alGet? rest k

/-- `Map.get(k) ?? d`. -/
def alGetD {V : Type} (m : List (String × V)) (k : String) (d : V) : V :=
  (alGet? m k).getD d

/-- `Map.set(k, v)`: overwrite the binding in place or append it. -/
def alSet {V : Type} (m : List (String × V)) (k : String) (v : V) : List (String × V) :=
  match m with
  | [] => [(k, v)]
  | (k', v') :: rest => if k' = k then (k, v) :: rest else (k', v') :: alSet rest k v

/-- `Map.set(k, (Map.get(k) ?? 0) + 1)`: the counting idiom used by every
tally in the scan. -/
def alBump (m : List (String × Nat)) (k : String) : List (String × Nat) :=
  alSet m k (alGetD m k 0 + 1)

/-- `Map.set(k, (Map.get(k) ?? []) ++ [x])`: the sample-collecting idiom of
`responseTimeStats`. -/
def alPush {V : Type} (m : List (String × List V)) (k : String) (x : V) :
    List (String × List V) :=
  alSet m k (alGetD m k [] ++ [x])

/-- A map has no duplicate keys (always true of a JavaScript `Map`). -/
def NK {V : Type} (m : List (String × V)) : Prop :=
  (m.map Prod.fst).Nodup

theorem alGet?_alSet_self {V : Type} (m : List (String × V)) (k : String) (v : V) :
    alGet? (alSet m k v) k = some v := by
  induction m with
  | nil => simp [alSet, alGet?]
  | cons hd tl ih =>
    by_cases h : hd.1 = k
    · simp [alSet, alGet?, h]
    · simp [alSet, alGet?, h, ih]

theorem alGet?_alSet_ne {V : Type} (m : List (String × V)) (k k' : String) (v : V)
    (h : k ≠ k') : alGet? (alSet m k v) k' = alGet? m k' := by
  induction m with
  | nil => simp [alSet, alGet?, h]
  | cons hd tl ih =>
    by_cases hh : hd.1 = k
    · subst hh
      simp [alSet, alGet?, h]
    · simp [alSet, alGet?, hh, ih]

theorem alGetD_alBump (m : List (String × Nat)) (k p : String) :
    alGetD (alBump m k) p 0 = alGetD m p 0 + (if k = p then 1 else 0) := by
  by_cases h : k = p
  · subst h
    simp [alBump, alGetD, alGet?_alSet_self]
  · simp [alBump, alGetD, alGet?_alSet_ne m k p _ h, h]

theorem alSet_keys_mem {V : Type} (m : List (String × V)) (k : String) (v : V)
    (h : k ∈ m.map Prod.fst) : (alSet m k v).map Prod.fst = m.map Prod.fst := by
  induction m with
  | nil => simp at h
  | cons hd tl ih =>
    by_cases hh : hd.1 = k
    · simp [alSet, hh]
    · rw [List.map_cons, List.mem_cons] at h
      rcases h with h | h
      · exact absurd h.symm hh
      · simp [alSet, hh, ih h]

theorem alSet_keys_not_mem {V : Type} (m : List (String × V)) (k : String) (v : V)
    (h : k ∉ m.map Prod.fst) : (alSet m k v).map Prod.fst = m.map Prod.fst ++ [k] := by
  induction m with
  | nil => simp [alSet]
  | cons hd tl ih =>
    rw [List.map_cons, List.mem_cons] at h
    push_neg at h
    have hne : ¬hd.1 = k := fun hh => h.1 hh.symm
    show List.map Prod.fst (if hd.1 = k then (k, v) :: tl else hd :: alSet tl k v) = _
    rw [if_neg hne, List.map_cons, ih h.2, List.map_cons]
    rfl

theorem NK_alSet {V : Type} (m : List (String × V)) (k : String) (v : V)
    (h : NK m) : NK (alSet m k v) := by
  by_cases hk : k ∈ m.map Prod.fst
  · unfold NK
    rw [alSet_keys_mem m k v hk]
    exact h
  · unfold NK
    rw [alSet_keys_not_mem m k v hk]
    unfold NK at h
    simp [List.nodup_append, h, hk]

theorem NK_alBump (m : List (String × Nat)) (k : String) (h : NK m) :
    NK (alBump m k) := NK_alSet _ _ _ h

theorem NK_alPush {V : Type} (m : List (String × List V)) (k : String) (x : V)
    (h : NK m) : NK (alPush m k x) := NK_alSet _ _ _ h

/-! ## External codecs

`fzstd.decompress` (which may throw), `Buffer.toString('utf-8')` and
`Buffer.from(·, 'base64')` are libraries outside the repository; the embedding
takes them as parameters. -/

/-- The external codecs used by the decoder.  `zstd` returns `none` when
`fzstd.decompress` throws; `utf8` is Node's replacing UTF-8 decoder (it never
throws); `b64` is Node's permissive base64 decoder (it never throws). -/
structure Ext where
  zstd : List Nat → Option (List Nat)
  utf8 : List Nat → List Char
  b64 : String → List Nat

/-- The U+FFFD replacement character produced by lossy UTF-8 decoding. -/
def repChar : Char := '�'

/-! ## Content decoder
`AnnualReportService.decodeMaybeCompressed` / `decodeBinaryContent` /
`looksLikeHex` / `looksLikeBase64` (`src/types/sns.ts`, lines 269-320); the
`DualReportService` copies are character-for-character identical
(`electron/services/dualReportService.ts`, lines 104-155). -/

/-- Is `c` one of `0-9a-fA-F`? (the character class of `/^[0-9a-fA-F]+$/`). -/
def isHexDigitChar (c : Char) : Bool :=
  (('0' ≤ c && c ≤ '9') || ('a' ≤ c && c ≤ 'f') || ('A' ≤ c && c ≤ 'F'))

/-- `looksLikeHex`: even length and entirely hex digits (`+` needs at least
one character, so the empty string fails the regex). -/
def looksLikeHex (s : String) : Bool :=
  s.length % 2 == 0 && !s.data.isEmpty && s.data.all isHexDigitChar

/-- Is `c` in the base64 alphabet of `/^[A-Za-z0-9+/=]+$/`? -/
def isBase64Char (c : Char) : Bool :=
  (('A' ≤ c && c ≤ 'Z') || ('a' ≤ c && c ≤ 'z') || ('0' ≤ c && c ≤ '9') ||
    c == '+' || c == '/' || c == '=')

/-- `looksLikeBase64`: length a multiple of 4 and entirely base64 alphabet. -/
def looksLikeBase64 (s : String) : Bool :=
  s.length % 4 == 0 && !s.data.isEmpty && s.data.all isBase64Char

/-- Numeric value of a hex digit. -/
def hexVal (c : Char) : Nat :=
  if '0' ≤ c && c ≤ '9' then c.toNat - '0'.toNat
  else if 'a' ≤ c && c ≤ 'f' then c.toNat - 'a'.toNat + 10
  else if 'A' ≤ c && c ≤ 'F' then c.toNat - 'A'.toNat + 10
  else 0

/-- `Buffer.from(s, 'hex')` on a string of hex digit pairs. -/
def hexDecode : List Char → List Nat
  | c1 :: c2 :: rest => (16 * hexVal c1 + hexVal c2) :: hexDecode rest
  | _ => []

/-- `data.readUInt32LE(0)` on the first four bytes. -/
def readUInt32LE (data : List Nat) : Nat :=
  match data with
  | b0 :: b1 :: b2 :: b3 :: _ => b0 + 256 * (b1 + 256 * (b2 + 256 * b3))
  | _ => 0

/-- A raw message column value: a string, or any non-string value (`Buffer`,
`null`, numbers, ...) for which the decoder falls through to `''`. -/
inductive RawValue where
  | vstr (s : String)
  | vother
deriving DecidableEq

/-- `decodeBinaryContent(data)`: zstd magic sniffing, lossy UTF-8 with a
20%-replacement-character threshold (the float comparison
`replacementCount < decoded.length * 0.2` is embedded as the exact integer
comparison `5 * replacementCount < decoded.length`, which agrees with the
double-precision evaluation), Latin-1 fallback, `''` on a decompression
throw. -/
def decodeBinaryContent (ext : Ext) (data : List Nat) : String :=
  if data.length = 0 then ""
  else if 4 ≤ data.length ∧ readUInt32LE data = 0xFD2FB528 then
    match ext.zstd data with
    | some out => String.mk (ext.utf8 out)
    | none => ""
  else
    let decoded := ext.utf8 data
    let replacementCount := (decoded.filter (fun c => c = repChar)).length
    if 5 * replacementCount < decoded.length then
      String.mk (decoded.filter (fun c => c ≠ repChar))
    else
      String.mk (data.map (fun b => Char.ofNat (b % 256)))

/-- `decodeMaybeCompressed(raw)`. -/
def decodeMaybeCompressed (ext : Ext) (raw : RawValue) : String :=
  match raw with
  | .vother => ""
  | .vstr s =>
    if s = "" then ""
    else if looksLikeHex s ∧ (hexDecode s.data).length > 0 then
      decodeBinaryContent ext (hexDecode s.data)
    else if looksLikeBase64 s then
      decodeBinaryContent ext (ext.b64 s)
    else s

/-- `decodeMessageContent(messageContent, compressContent)`: the compressed
column is tried first, the plain column only when it came back empty. -/
def decodeMessageContent (ext : Ext) (messageContent compressContent : RawValue) : String :=
  let content := decodeMaybeCompressed ext compressContent
  if content = "" then decodeMaybeCompressed ext messageContent else content

/-! ## Local calendar time

Timestamps are epoch seconds.  The host's local time is modelled by a fixed
UTC offset `z` (seconds east of UTC); `new Date(t * 1000)` then reads clock
values off `t + z`.  Epoch day 0 (1970-01-01) was a Thursday, so
`Date.getDay()` (0 = Sunday) is the epoch-day number plus 4, mod 7. -/

/-- `new Date(t * 1000).getDay()` under offset `z`: 0 = Sunday .. 6 = Saturday. -/
def jsGetDay (z t : Int) : Int := ((t + z).fdiv 86400 + 4) % 7

/-- The heatmap row index: `dt.getDay() === 0 ? 6 : dt.getDay() - 1`. -/
def weekdayIndexZ (z t : Int) : Int :=
  if jsGetDay z t = 0 then 6 else jsGetDay z t - 1

/-- `new Date(t * 1000).getHours()` under offset `z`. -/
def hourOfDay (z t : Int) : Int := ((t + z).fdiv 3600) % 24

/-- The local calendar-day number of `t`: which local day the message falls
in.  The code's local `Y-M-D` day-key strings are in bijection with this
number. -/
def localDayNumber (z t : Int) : Int := (t + z).fdiv 86400

/-- `Math.floor(new Date(dt.getFullYear(), dt.getMonth(), dt.getDate()).getTime() / 86400000)`:
the UTC epoch-day index of the local midnight preceding `t`. -/
def dayIndexOf (z t : Int) : Int := (localDayNumber z t * 86400 - z).fdiv 86400

theorem jsGetDay_nonneg (z t : Int) : 0 ≤ jsGetDay z t :=
  Int.emod_nonneg _ (by norm_num)

theorem jsGetDay_lt (z t : Int) : jsGetDay z t < 7 :=
  Int.emod_lt_of_pos _ (by norm_num)

theorem weekdayIndexZ_nonneg (z t : Int) : 0 ≤ weekdayIndexZ z t := by
  unfold weekdayIndexZ
  split
  · norm_num
  · have h0 := jsGetDay_nonneg z t
    rename_i h
    omega

theorem weekdayIndexZ_lt (z t : Int) : weekdayIndexZ z t < 7 := by
  unfold weekdayIndexZ
  split
  · norm_num
  · have h7 := jsGetDay_lt z t
    omega

theorem hourOfDay_nonneg (z t : Int) : 0 ≤ hourOfDay z t :=
  Int.emod_nonneg _ (by norm_num)

theorem hourOfDay_lt (z t : Int) : hourOfDay z t < 24 :=
  Int.emod_lt_of_pos _ (by norm_num)

/-- The heatmap row index as a `Fin 7`. -/
def wFin (z t : Int) : Fin 7 :=
  ⟨(weekdayIndexZ z t).toNat, by
    have h1 := weekdayIndexZ_lt z t
    have h0 := weekdayIndexZ_nonneg z t
    omega⟩

/-- The heatmap column index as a `Fin 24`. -/
def hFin (z t : Int) : Fin 24 :=
  ⟨(hourOfDay z t).toNat, by
    have h1 := hourOfDay_lt z t
    have h0 := hourOfDay_nonneg z t
    omega⟩

/-! ## Heatmap -/

/-- The 7×24 weekday × hour activity grid. -/
def Heatmap : Type := Fin 7 → Fin 24 → Nat

/-- The all-zero grid created by `Array.from({length: 7}, () => Array(24).fill(0))`. -/
def zeroHeat : Heatmap := fun _ _ => 0

/-- `heatmapData[w][h]++`. -/
def bumpHeat (hm : Heatmap) (w : Fin 7) (h : Fin 24) : Heatmap :=
  fun w' h' => if w' = w ∧ h' = h then hm w' h' + 1 else hm w' h'

/-- `sum(heatmap[w][h] for all w, h)`. -/
def sumHeat (hm : Heatmap) : Nat :=
  Finset.univ.sum (fun p : Fin 7 × Fin 24 => hm p.1 p.2)

theorem sumHeat_bumpHeat (hm : Heatmap) (w : Fin 7) (h : Fin 24) :
    sumHeat (bumpHeat hm w h) = sumHeat hm + 1 := by
  unfold sumHeat bumpHeat
  have hpt : ∀ p : Fin 7 × Fin 24,
      (if p.1 = w ∧ p.2 = h then hm p.1 p.2 + 1 else hm p.1 p.2) =
        hm p.1 p.2 + (if p = (w, h) then 1 else 0) := by
    intro p
    by_cases hp : p = (w, h)
    · subst hp
      simp
    · have : ¬(p.1 = w ∧ p.2 = h) := by
        intro hc
        exact hp (Prod.ext hc.1 hc.2)
      simp [this, hp]
  rw [Finset.sum_congr rfl (fun p _ => hpt p), Finset.sum_add_distrib]
  simp

/-! ## Streak accumulator

`AnnualReportService.computeLongestStreak` (lines 329-433) and the identical
inline logic of the full-scan loop (lines 711-726).  Calendar days are the
`dayIndexOf` values; streak start/end dates are represented by their day
index. -/

structure StreakState where
  lastDayIndex : Option Int
  currentStreak : Nat
  currentStart : Option Int
  maxStreak : Nat
  maxStart : Option Int
  maxEnd : Option Int
deriving DecidableEq, Repr

/-- The per-session initial state. -/
def initStreak : StreakState := ⟨none, 0, none, 0, none, none⟩

/-- The updated run length of a non-skipped day: `currentStreak++` when the
day is exactly one later, else a reset to 1. -/
def streakCur (s : StreakState) (d : Int) : Nat :=
  match s.lastDayIndex with
  | some last => if d - last = 1 then s.currentStreak + 1 else 1
  | none => 1

/-- The updated run start of a non-skipped day: kept on an extension, this
day on a reset. -/
def streakStart (s : StreakState) (d : Int) : Option Int :=
  match s.lastDayIndex with
  | some last => if d - last = 1 then s.currentStart else some d
  | none => some d

/-- One observed row, `computeLongestStreak` style (lines 379-394):
same day is skipped, a day exactly one later extends the run, anything else
resets the run to length 1 at this day; the running maximum is updated. -/
def streakStep (s : StreakState) (d : Int) : StreakState :=
  if s.lastDayIndex = some d then s
  else if streakCur s d > s.maxStreak then
    ⟨some d, streakCur s d, streakStart s d, streakCur s d, streakStart s d, some d⟩
  else
    ⟨some d, streakCur s d, streakStart s d, s.maxStreak, s.maxStart, s.maxEnd⟩

/-- One observed row, full-scan-loop style (lines 713-726): the guard is
written `lastDayIndex === null || dayIndex !== lastDayIndex` there. -/
def streakStepLoop (s : StreakState) (d : Int) : StreakState :=
  if s.lastDayIndex = none ∨ ¬s.lastDayIndex = some d then
    if streakCur s d > s.maxStreak then
      ⟨some d, streakCur s d, streakStart s d, streakCur s d, streakStart s d, some d⟩
    else
      ⟨some d, streakCur s d, streakStart s d, s.maxStreak, s.maxStart, s.maxEnd⟩
  else s

/-- The two textual variants of the streak update have the same behaviour. -/
theorem streakStepLoop_eq_streakStep (s : StreakState) (d : Int) :
    streakStepLoop s d = streakStep s d := by
  unfold streakStepLoop streakStep
  rcases s with ⟨last, cur, start, ms, mst, me⟩
  cases last with
  | none => simp
  | some l =>
    by_cases h : (some l : Option Int) = some d
    · simp [h]
    · simp [h]

/-- The whole-session streak state: the fold of `streakStep` over the
session's day indices in delivery order. -/
def sessionStreak (days : List Int) : StreakState :=
  days.foldl streakStep initStreak

/-- The global best streak over all sessions. -/
structure BestStreak where
  sessionId : String
  days : Nat
  startDay : Option Int
  endDay : Option Int
deriving DecidableEq, Repr

def initBest : BestStreak := ⟨"", 0, none, none⟩

/-- `if (maxStreak > bestDays) { replace best }` after each session. -/
def updateBest (b : BestStreak) (sid : String) (s : StreakState) : BestStreak :=
  if s.maxStreak > b.days then ⟨sid, s.maxStreak, s.maxStart, s.maxEnd⟩ else b

/-- `computeLongestStreak(sessionIds, ...)`: each session's days are folded
with `streakStep`, and the global best is replaced whenever a session's
maximum run is strictly longer. -/
def computeLongestStreak (sessions : List (String × List Int)) : BestStreak :=
  sessions.foldl (fun b p => updateBest b p.1 (sessionStreak p.2)) initBest

/-! ## Phrase accumulator -/

/-- The second text message type accepted beside `1`. -/
def bigTextType : Nat := 244813135921

/-- Does `sub` occur contiguously in `t`? -/
def hasSubstrAux (sub : List Char) : List Char → Bool
  | [] => sub.isPrefixOf ([] : List Char)
  | c :: rest => sub.isPrefixOf (c :: rest) || hasSubstrAux sub rest

/-- `t.startsWith(pre)`. -/
def strStartsWith (t pre : String) : Bool := pre.data.isPrefixOf t.data

/-- `t.includes(sub)`. -/
def hasSubstr (t sub : String) : Bool := hasSubstrAux sub.data t.data

/-- The annual-report eligibility filter (lines 699-701): trimmed length in
[2, 20], no `"http"` substring, no `'<'`, not starting with `'['` or
`"<?xml"` (string length counted in characters; the host counts UTF-16 code
units, which agree on BMP text). -/
def eligibleAnnual (t : String) : Bool :=
  2 ≤ t.length && t.length ≤ 20 && !hasSubstr t "http" && !t.data.contains '<' &&
    !strStartsWith t "[" && !strStartsWith t "<?xml"

/-- The dual-report eligibility filter (lines 378-383): normalized length in
[2, 50] with the same content filters. -/
def eligibleDual (t : String) : Bool :=
  2 ≤ t.length && t.length ≤ 50 && !hasSubstr t "http" && !t.data.contains '<' &&
    !strStartsWith t "[" && !strStartsWith t "<?xml"

/-- The characters matched by the regex class `\s` (the ASCII part plus
no-break space and BOM; the remaining Unicode space separators are not
exercised by the analysis). -/
def isJsWs (c : Char) : Bool :=
  c == ' ' || c == '\t' || c == '\n' || c == '\r' ||
    c == '\x0b' || c == '\x0c' || c == ' ' || c == '﻿'

/-- `text.trim()`: strip leading and trailing whitespace. -/
def jsTrim (s : String) : String :=
  String.mk (((s.data.dropWhile isJsWs).reverse.dropWhile isJsWs).reverse)

/-- `text.replace(/\s+/g, ' ')`: every maximal whitespace run becomes one
space. -/
def collapseWs : List Char → List Char
  | [] => []
  | c :: rest =>
    if isJsWs c then ' ' :: collapseWs (rest.dropWhile isJsWs)
    else c :: collapseWs rest
termination_by l => l.length
decreasing_by
  · simp only [List.length_cons]
    exact Nat.lt_succ_of_le ((List.dropWhile_sublist _).length_le)
  · simp

/-- The dual-report normalization `text.replace(/\s+/g, ' ').trim()`. -/
def normalizeDual (t : String) : String :=
  jsTrim (String.mk (collapseWs t.data))

/-- The final ranking shared by both reports: keep counts ≥ 2, sort by count
descending (stable, like the host), take the top `n`. -/
def rankPhrases (n : Nat) (m : List (String × Nat)) : List (String × Nat) :=
  ((m.filter (fun e => 2 ≤ e.2)).mergeSort (fun a b => b.2 ≤ a.2)).take n

/-! ## The full-scan loop

One decoded message row and the combined accumulator state of
`generateReportWithConfig`'s per-message loop (lines 649-782). -/

/-- A message row as the loop reads it: `create_time` is
`parseInt(row.create_time || '0', 10)` (0 also stands for an undecodable
value, which the loop skips), `isSent` is
`parseInt(row.computed_is_send ?? row.is_send ?? '0', 10) === 1`, `localType`
is `parseInt(row.local_type || row.type || '1', 10)`. -/
structure Row where
  create_time : Nat
  isSent : Bool
  localType : Nat
  message_content : RawValue
  compress_content : RawValue
deriving DecidableEq

/-- Per-session conversation-initiation counters. -/
structure Conv where
  initiated : Nat
  received : Nat
deriving DecidableEq, Repr

/-- The `lastMessageTime` entry for a session. -/
structure LastMsg where
  time : Nat
  isSent : Bool
deriving DecidableEq, Repr

/-- `CONVERSATION_GAP` (line 514). -/
def CONVERSATION_GAP : Int := 3600

/-- The global mutable state of the full scan (the streak state is
per-session and kept separately). -/
structure ScanState where
  heatmap : Heatmap
  midnightStats : List (String × Nat)
  conversationStarts : List (String × Conv)
  responseTimeStats : List (String × List Int)
  lastMessageTime : List (String × LastMsg)
  phraseCount : List (String × Nat)
  peakDayContacts : List (String × Nat)

/-- The state at loop entry: every map empty, the heatmap all zeros. -/
def initScan : ScanState :=
  ⟨zeroHeat, [], [], [], [], [], []⟩

/-- The conversation / response update of one row (lines 676-693), reading
the `conversationStarts`, `responseTimeStats` and `lastMessageTime` maps. -/
def convUpdate (sid : String) (conv : List (String × Conv))
    (resp : List (String × List Int)) (last : List (String × LastMsg))
    (t : Int) (isSent : Bool) :
    List (String × Conv) × List (String × List Int) :=
  let cs0 := if (alGet? conv sid).isNone then alSet conv sid ⟨0, 0⟩ else conv
  let conv0 := alGetD cs0 sid ⟨0, 0⟩
  match alGet? last sid with
  | none =>
    (alSet cs0 sid
      (if isSent then ⟨conv0.initiated + 1, conv0.received⟩
       else ⟨conv0.initiated, conv0.received + 1⟩), resp)
  | some lm =>
    if t - (lm.time : Int) > CONVERSATION_GAP then
      (alSet cs0 sid
        (if isSent then ⟨conv0.initiated + 1, conv0.received⟩
         else ⟨conv0.initiated, conv0.received + 1⟩), resp)
    else if lm.isSent ≠ isSent then
      if isSent ∧ ¬lm.isSent then
        let responseTime := t - (lm.time : Int)
        if responseTime > 0 ∧ responseTime < 86400 then
          (cs0, alPush resp sid responseTime)
        else (cs0, resp)
      else (cs0, resp)
    else (cs0, resp)

/-- The annual-report phrase update of one row (lines 696-704): text-typed,
self-sent, decoded, trimmed, filtered. -/
def phraseUpdate (ext : Ext) (m : List (String × Nat)) (row : Row) :
    List (String × Nat) :=
  if (row.localType = 1 ∨ row.localType = bigTextType) ∧ row.isSent then
    let text := jsTrim (decodeMessageContent ext row.message_content row.compress_content)
    if eligibleAnnual text then alBump m text else m
  else m

/-- One row of the full-scan loop body (lines 667-739), processing every
accumulator (the row is skipped entirely when its timestamp does not
decode). -/
def scanRowStep (ext : Ext) (z : Int) (peakDayKey : Option Int) (sid : String)
    (s : ScanState × StreakState) (row : Row) : ScanState × StreakState :=
  if row.create_time = 0 then s
  else
    let st := s.1
    let t : Int := (row.create_time : Int)
    let cr := convUpdate sid st.conversationStarts st.responseTimeStats st.lastMessageTime t row.isSent
    let heatmap' := bumpHeat st.heatmap (wFin z t) (hFin z t)
    let midnight' :=
      if 0 ≤ hourOfDay z t ∧ hourOfDay z t < 6 then alBump st.midnightStats sid
      else st.midnightStats
    let peak' :=
      match peakDayKey with
      | some k =>
        if localDayNumber z t = k then alBump st.peakDayContacts sid
        else st.peakDayContacts
      | none => st.peakDayContacts
    (⟨heatmap', midnight', cr.1, cr.2, alSet st.lastMessageTime sid ⟨row.create_time, row.isSent⟩,
        phraseUpdate ext st.phraseCount row, peak'⟩,
      streakStepLoop s.2 (dayIndexOf z t))

/-- One session of the full scan: its rows folded with a fresh per-session
streak state, then the global best streak updated (lines 649-780). -/
def scanSession (ext : Ext) (z : Int) (peakDayKey : Option Int)
    (acc : ScanState × BestStreak) (sess : String × List Row) : ScanState × BestStreak :=
  let r := sess.2.foldl (scanRowStep ext z peakDayKey sess.1) (acc.1, initStreak)
  (r.1, updateBest acc.2 sess.1 r.2)

/-- The whole full scan over every session, in enumeration order. -/
def fullScan (ext : Ext) (z : Int) (peakDayKey : Option Int)
    (sessions : List (String × List Row)) : ScanState × BestStreak :=
  sessions.foldl (scanSession ext z peakDayKey) (initScan, initBest)

/-! ## Dual-report word tally

`DualReportService.generateReportWithConfig`, lines 372-387: both sides'
text messages, whitespace-normalized, filtered, tallied. -/

/-- The dual-report word-cloud update of one row. -/
def dualWordStep (ext : Ext) (m : List (String × Nat)) (row : Row) :
    List (String × Nat) :=
  if row.localType = 1 ∨ row.localType = bigTextType then
    let text := jsTrim (decodeMessageContent ext row.message_content row.compress_content)
    if text.length > 0 then
      let normalized := normalizeDual text
      if eligibleDual normalized then alBump m normalized else m
    else m
  else m

/-- The dual-report word-cloud tally over the scanned rows. -/
def dualWordMap (ext : Ext) (rows : List Row) : List (String × Nat) :=
  rows.foldl (dualWordStep ext) []

/-! ## Report entry: configuration checks and session enumeration

`ensureConnectedWithConfig` (lines 200-213) composed with the zero-session
check of `generateReportWithConfig` (lines 485-488); `getAvailableYears`
(lines 440-443) performs the same check.  `openOk` stands for the external
`wcdbService.open` outcome.  The result is the error string of the
`{ success: false, error }` value returned, or `none` when the generation
proceeds to the scan. -/
def reportEntryError (wxid dbPath decryptKey : String) (openOk : Bool)
    (sessionIds : List String) : Option String :=
  if wxid = "" then some "未配置微信ID"
  else if dbPath = "" then some "未配置数据库路径"
  else if decryptKey = "" then some "未配置解密密钥"
  else if ¬openOk then some "WCDB 打开失败"
  else if sessionIds = [] then some "未找到消息会话"
  else none

/-! ## Fast-path / full-scan orchestration

`generateReportWithConfig`, lines 570-793: the bulk
`wcdbService.getAnnualReportExtras` result either populates every
accumulator (fast path) or the full per-message scan of every session runs.
The resulting `ReportCore` gathers the accumulator outputs that the report
assembly (lines 795-1013) consumes. -/

/-- One per-session response entry of the extras payload
(`{ avg, count }`). -/
structure RespStat where
  avg : Int
  count : Nat
deriving DecidableEq, Repr

/-- The streak field of the extras payload; `startDate` / `endDate` are the
day numbers of the parsed `YYYY-MM-DD` strings, `none` when absent or
unparsable. -/
structure StreakPayload where
  sessionId : String
  days : Nat
  startDate : Option Int
  endDate : Option Int
deriving DecidableEq, Repr

/-- The extras payload; each field independently present. -/
structure ExtrasPayload where
  heatmap : Option Heatmap
  midnight : Option (List (String × Nat))
  conversation : Option (List (String × Conv))
  response : Option (List (String × RespStat))
  peakDay : Option (List (String × Nat))
  topPhrases : Option (List (String × Nat))
  streak : Option StreakPayload

/-- Copying the entries of a payload object into a fresh `Map` with
`for (const [k, v] of Object.entries(o)) map.set(k, v)`. -/
def copyAL {V : Type} (l : List (String × V)) : List (String × V) :=
  l.foldl (fun m kv => alSet m kv.1 kv.2) []

/-- The accumulator outputs handed to the report assembly.  `fullScanRan`
records whether the per-message loop over every session ran;
`streakScanRan` whether the separate `computeLongestStreak` per-message
scan ran. -/
structure ReportCore where
  heatmap : Heatmap
  midnightStats : List (String × Nat)
  conversationStarts : List (String × Conv)
  responseFromSql : Option (List (String × RespStat))
  responseTimeStats : List (String × List Int)
  peakDayCounts : Option (List (String × Nat))
  phrasesFromSql : Option (List (String × Nat))
  phraseMap : List (String × Nat)
  streak : BestStreak
  fullScanRan : Bool
  streakScanRan : Bool

/-- The day lists handed to the streak logic: one day index per row with a
decodable timestamp, in delivery order. -/
def sessionDays (z : Int) (rows : List Row) : List Int :=
  (rows.filter (fun r => r.create_time ≠ 0)).map (fun r => dayIndexOf z (r.create_time : Int))

/-- The standalone `computeLongestStreak(sessionIds, ...)` pass over the same
sessions. -/
def computeLongestStreakRows (z : Int) (sessions : List (String × List Row)) : BestStreak :=
  computeLongestStreak (sessions.map (fun p => (p.1, sessionDays z p.2)))

/-- Lines 571-793: take every statistic from the extras payload when the bulk
call succeeded, otherwise run the full per-message scan; when the payload's
streak is unusable, fall back to the dedicated streak scan and keep the
longer result. -/
def orchestrate (ext : Ext) (z : Int) (peakDayKey : Option Int)
    (extras : Option ExtrasPayload) (sessions : List (String × List Row)) : ReportCore :=
  match extras with
  | some p =>
    let heatmap := match p.heatmap with | some H => H | none => zeroHeat
    let midnight := match p.midnight with | some l => copyAL l | none => []
    let conv := match p.conversation with | some l => copyAL l | none => []
    let peak :=
      match peakDayKey, p.peakDay with
      | some _, some l =>
        let m := copyAL l
        if m.isEmpty then none else some m
      | _, _ => none
    let phr :=
      match p.topPhrases with
      | some l => if l.isEmpty then none else some l
      | none => none
    let s0 : BestStreak :=
      match p.streak with
      | some sp =>
        if sp.sessionId ≠ "" ∧ 0 < sp.days then
          ⟨sp.sessionId, sp.days, sp.startDate, sp.endDate⟩
        else initBest
      | none => initBest
    let streakDone : Bool :=
      match p.streak with
      | some sp =>
        if sp.sessionId ≠ "" ∧ 0 < sp.days ∧ sp.startDate.isSome ∧ sp.endDate.isSome then
          true
        else false
      | none => false
    let streak :=
      if streakDone then s0
      else
        let r := computeLongestStreakRows z sessions
        if r.days > s0.days then r else s0
    ⟨heatmap, midnight, conv, p.response, [], peak, phr, [], streak, false, !streakDone⟩
  | none =>
    let fs := fullScan ext z peakDayKey sessions
    ⟨fs.1.heatmap, fs.1.midnightStats, fs.1.conversationStarts, none, fs.1.responseTimeStats,
      (if fs.1.peakDayContacts.isEmpty then none else some fs.1.peakDayContacts),
      none, fs.1.phraseCount, fs.2, true, false⟩

/-- The final `topPhrases` of the report (lines 990-996): the payload list
verbatim when present, otherwise the ranked scan tally. -/
def finalTopPhrases (core : ReportCore) : List (String × Nat) :=
  match core.phrasesFromSql with
  | some l => l
  | none => rankPhrases 32 core.phraseMap

/-- Modelled from the spec: `wcdbService.getAnnualReportExtras` itself is not
part of this repository, only its caller is.  The spec describes its payload
as the pre-aggregated versions of exactly the statistics the full scan
computes (heatmap, midnight counts, conversation initiation, response times,
peak-day breakdown, top phrases, best streak), so the payload that a correct
fast path returns over a dataset is built here from the full scan of that
same dataset; response entries carry each session's sample count and average
latency. -/
def correctPayload (ext : Ext) (z : Int) (peakDayKey : Option Int)
    (sessions : List (String × List Row)) : ExtrasPayload :=
  let fs := fullScan ext z peakDayKey sessions
  ⟨some fs.1.heatmap,
    some fs.1.midnightStats,
    some fs.1.conversationStarts,
    some (fs.1.responseTimeStats.map (fun p => (p.1, (⟨p.2.sum / (p.2.length : Int), p.2.length⟩ : RespStat)))),
    some fs.1.peakDayContacts,
    some (rankPhrases 32 fs.1.phraseCount),
    some ⟨fs.2.sessionId, fs.2.days, fs.2.startDay, fs.2.endDay⟩⟩

/-! ## Supporting lemmas -/

theorem alSet_of_not_mem {V : Type} (m : List (String × V)) (k : String) (v : V)
    (h : k ∉ m.map Prod.fst) : alSet m k v = m ++ [(k, v)] := by
  induction m with
  | nil => simp [alSet]
  | cons hd tl ih =>
    rw [List.map_cons, List.mem_cons] at h
    push_neg at h
    have hne : ¬hd.1 = k := fun hh => h.1 hh.symm
    show (if hd.1 = k then (k, v) :: tl else hd :: alSet tl k v) = _
    rw [if_neg hne, ih h.2]
    rfl

theorem copyAL_aux {V : Type} (l m : List (String × V))
    (hnk : (l.map Prod.fst).Nodup)
    (hdisj : ∀ k, k ∈ l.map Prod.fst → k ∉ m.map Prod.fst) :
    l.foldl (fun acc kv => alSet acc kv.1 kv.2) m = m ++ l := by
  induction l generalizing m with
  | nil => simp
  | cons hd tl ih =>
    rw [List.map_cons, List.nodup_cons] at hnk
    rw [List.foldl_cons, alSet_of_not_mem m hd.1 hd.2 (hdisj hd.1 (by simp))]
    rw [ih (m ++ [hd]) hnk.2]
    · simp
    · intro k hk
      rw [List.map_append, List.mem_append]
      push_neg
      refine ⟨hdisj k (by simp [hk]), ?_⟩
      simp only [List.map_cons, List.map_nil, List.mem_singleton]
      intro hc
      subst hc
      exact hnk.1 hk

/-- Copying a duplicate-free payload object into a fresh `Map` reproduces it
verbatim. -/
theorem copyAL_of_NK {V : Type} (l : List (String × V)) (h : NK l) :
    copyAL l = l := by
  unfold copyAL
  rw [copyAL_aux l [] h (by simp)]
  simp

/-! Projections of the combined per-row loop state. -/

/-- The streak component of one loop row. -/
def streakRowStep (z : Int) (s : StreakState) (row : Row) : StreakState :=
  if row.create_time = 0 then s else streakStepLoop s (dayIndexOf z (row.create_time : Int))

theorem scanRows_snd (ext : Ext) (z : Int) (k : Option Int) (sid : String)
    (rows : List Row) (st : ScanState) (ss : StreakState) :
    (rows.foldl (scanRowStep ext z k sid) (st, ss)).2 =
      rows.foldl (streakRowStep z) ss := by
  induction rows generalizing st ss with
  | nil => rfl
  | cons r rest ih =>
    rw [List.foldl_cons, List.foldl_cons]
    by_cases h : r.create_time = 0
    · rw [show scanRowStep ext z k sid (st, ss) r = (st, ss) by
        unfold scanRowStep; rw [if_pos h]]
      rw [show streakRowStep z ss r = ss by unfold streakRowStep; rw [if_pos h]]
      exact ih st ss
    · rw [show streakRowStep z ss r = streakStepLoop ss (dayIndexOf z (r.create_time : Int)) by
        unfold streakRowStep; rw [if_neg h]]
      unfold scanRowStep
      rw [if_neg h]
      exact ih _ _

/-- Folding the per-row streak update over the rows is the `streakStep` fold
over the decodable day indices. -/
theorem streakRows_eq_sessionStreak (z : Int) (rows : List Row) (ss : StreakState) :
    rows.foldl (streakRowStep z) ss = (sessionDays z rows).foldl streakStep ss := by
  induction rows generalizing ss with
  | nil => rfl
  | cons r rest ih =>
    by_cases h : r.create_time = 0
    · rw [List.foldl_cons,
        show streakRowStep z ss r = ss by unfold streakRowStep; rw [if_pos h],
        show sessionDays z (r :: rest) = sessionDays z rest by
          unfold sessionDays; rw [List.filter_cons]; simp [h]]
      exact ih ss
    · rw [List.foldl_cons,
        show streakRowStep z ss r = streakStepLoop ss (dayIndexOf z (r.create_time : Int)) by
          unfold streakRowStep; rw [if_neg h],
        show sessionDays z (r :: rest) =
            dayIndexOf z (r.create_time : Int) :: sessionDays z rest by
          unfold sessionDays; rw [List.filter_cons]; simp [h],
        List.foldl_cons, streakStepLoop_eq_streakStep]
      exact ih _

/-- The global streak best produced by the full scan is exactly what the
standalone `computeLongestStreak` pass computes over the same sessions. -/
theorem fullScan_streak (ext : Ext) (z : Int) (k : Option Int)
    (sessions : List (String × List Row)) :
    (fullScan ext z k sessions).2 = computeLongestStreakRows z sessions := by
  unfold fullScan computeLongestStreakRows computeLongestStreak
  rw [List.foldl_map]
  suffices h : ∀ (st : ScanState) (b : BestStreak),
      (sessions.foldl (scanSession ext z k) (st, b)).2 =
        sessions.foldl (fun b p => updateBest b p.1 (sessionStreak (sessionDays z p.2))) b by
    exact h initScan initBest
  intro st b
  induction sessions generalizing st b with
  | nil => rfl
  | cons s rest ih =>
    have hs : scanSession ext z k (st, b) s =
        ((s.2.foldl (scanRowStep ext z k s.1) (st, initStreak)).1,
          updateBest b s.1 (sessionStreak (sessionDays z s.2))) := by
      unfold scanSession
      refine Prod.ext rfl ?_
      show updateBest b s.1 (s.2.foldl (scanRowStep ext z k s.1) (st, initStreak)).2 = _
      rw [scanRows_snd, streakRows_eq_sessionStreak]
      rfl
    rw [List.foldl_cons, List.foldl_cons, hs, ih]

/-- The heatmap component of one loop row. -/
def heatRowStep (z : Int) (hm : Heatmap) (row : Row) : Heatmap :=
  if row.create_time = 0 then hm
  else bumpHeat hm (wFin z (row.create_time : Int)) (hFin z (row.create_time : Int))

/-- The phrase component of one loop row. -/
def phraseRowStep (ext : Ext) (m : List (String × Nat)) (row : Row) :
    List (String × Nat) :=
  if row.create_time = 0 then m else phraseUpdate ext m row

theorem scanRows_heat (ext : Ext) (z : Int) (k : Option Int) (sid : String)
    (rows : List Row) (st : ScanState) (ss : StreakState) :
    (rows.foldl (scanRowStep ext z k sid) (st, ss)).1.heatmap =
      rows.foldl (heatRowStep z) st.heatmap := by
  induction rows generalizing st ss with
  | nil => rfl
  | cons r rest ih =>
    rw [List.foldl_cons, List.foldl_cons]
    by_cases h : r.create_time = 0
    · rw [show scanRowStep ext z k sid (st, ss) r = (st, ss) by
        unfold scanRowStep; rw [if_pos h]]
      rw [show heatRowStep z st.heatmap r = st.heatmap by
        unfold heatRowStep; rw [if_pos h]]
      exact ih st ss
    · rw [show heatRowStep z st.heatmap r =
          bumpHeat st.heatmap (wFin z (r.create_time : Int)) (hFin z (r.create_time : Int)) by
        unfold heatRowStep; rw [if_neg h]]
      unfold scanRowStep
      rw [if_neg h]
      exact ih _ _

theorem scanRows_phrase (ext : Ext) (z : Int) (k : Option Int) (sid : String)
    (rows : List Row) (st : ScanState) (ss : StreakState) :
    (rows.foldl (scanRowStep ext z k sid) (st, ss)).1.phraseCount =
      rows.foldl (phraseRowStep ext) st.phraseCount := by
  induction rows generalizing st ss with
  | nil => rfl
  | cons r rest ih =>
    rw [List.foldl_cons, List.foldl_cons]
    by_cases h : r.create_time = 0
    · rw [show scanRowStep ext z k sid (st, ss) r = (st, ss) by
        unfold scanRowStep; rw [if_pos h]]
      rw [show phraseRowStep ext st.phraseCount r = st.phraseCount by
        unfold phraseRowStep; rw [if_pos h]]
      exact ih st ss
    · rw [show phraseRowStep ext st.phraseCount r = phraseUpdate ext st.phraseCount r by
        unfold phraseRowStep; rw [if_neg h]]
      unfold scanRowStep
      rw [if_neg h]
      exact ih _ _

theorem fullScan_heat_general (ext : Ext) (z : Int) (k : Option Int)
    (sessions : List (String × List Row)) (st : ScanState) (b : BestStreak) :
    (sessions.foldl (scanSession ext z k) (st, b)).1.heatmap =
      (sessions.map Prod.snd).flatten.foldl (heatRowStep z) st.heatmap := by
  induction sessions generalizing st b with
  | nil => rfl
  | cons s rest ih =>
    rw [List.foldl_cons, List.map_cons, List.flatten_cons, List.foldl_append]
    have hs : scanSession ext z k (st, b) s =
        ((s.2.foldl (scanRowStep ext z k s.1) (st, initStreak)).1,
          updateBest b s.1 (s.2.foldl (scanRowStep ext z k s.1) (st, initStreak)).2) := rfl
    rw [hs, ih]
    congr 1
    rw [scanRows_heat]

theorem fullScan_phrase_general (ext : Ext) (z : Int) (k : Option Int)
    (sessions : List (String × List Row)) (st : ScanState) (b : BestStreak) :
    (sessions.foldl (scanSession ext z k) (st, b)).1.phraseCount =
      (sessions.map Prod.snd).flatten.foldl (phraseRowStep ext) st.phraseCount := by
  induction sessions generalizing st b with
  | nil => rfl
  | cons s rest ih =>
    rw [List.foldl_cons, List.map_cons, List.flatten_cons, List.foldl_append]
    have hs : scanSession ext z k (st, b) s =
        ((s.2.foldl (scanRowStep ext z k s.1) (st, initStreak)).1,
          updateBest b s.1 (s.2.foldl (scanRowStep ext z k s.1) (st, initStreak)).2) := rfl
    rw [hs, ih]
    congr 1
    rw [scanRows_phrase]

/-- Summing the heatmap after a row fold: one cell per decodable row. -/
theorem sumHeat_heatRows (z : Int) (rows : List Row) (hm : Heatmap) :
    sumHeat (rows.foldl (heatRowStep z) hm) =
      sumHeat hm + (rows.filter (fun r => r.create_time ≠ 0)).length := by
  induction rows generalizing hm with
  | nil => simp
  | cons r rest ih =>
    rw [List.foldl_cons, List.filter_cons]
    by_cases h : r.create_time = 0
    · rw [show heatRowStep z hm r = hm by unfold heatRowStep; rw [if_pos h]]
      simp [h, ih]
    · rw [show heatRowStep z hm r =
          bumpHeat hm (wFin z (r.create_time : Int)) (hFin z (r.create_time : Int)) by
        unfold heatRowStep; rw [if_neg h]]
      rw [ih, sumHeat_bumpHeat]
      simp [h]
      omega

/-- The extracted phrase key of one row: `some text` exactly when the loop
tallies the row. -/
def annualKey (ext : Ext) (row : Row) : Option String :=
  if row.create_time ≠ 0 ∧ (row.localType = 1 ∨ row.localType = bigTextType) ∧ row.isSent
      ∧ eligibleAnnual (jsTrim (decodeMessageContent ext row.message_content row.compress_content)) then
    some (jsTrim (decodeMessageContent ext row.message_content row.compress_content))
  else none

theorem phraseRows_count (ext : Ext) (rows : List Row) (m : List (String × Nat)) (p : String) :
    alGetD (rows.foldl (phraseRowStep ext) m) p 0 =
      alGetD m p 0 + (rows.filter (fun r => annualKey ext r = some p)).length := by
  induction rows generalizing m with
  | nil => simp
  | cons r rest ih =>
    rw [List.foldl_cons, List.filter_cons]
    by_cases h0 : r.create_time = 0
    · rw [show phraseRowStep ext m r = m by unfold phraseRowStep; rw [if_pos h0]]
      rw [show annualKey ext r = none by unfold annualKey; rw [if_neg (by simp [h0])]]
      simp [ih]
    · rw [show phraseRowStep ext m r = phraseUpdate ext m r by
        unfold phraseRowStep; rw [if_neg h0]]
      by_cases h1 : (r.localType = 1 ∨ r.localType = bigTextType) ∧ r.isSent
      · by_cases h2 : eligibleAnnual (jsTrim (decodeMessageContent ext r.message_content r.compress_content))
        · rw [show phraseUpdate ext m r =
              alBump m (jsTrim (decodeMessageContent ext r.message_content r.compress_content)) by
            unfold phraseUpdate; rw [if_pos h1, if_pos h2]]
          rw [show annualKey ext r =
              some (jsTrim (decodeMessageContent ext r.message_content r.compress_content)) by
            unfold annualKey; rw [if_pos ⟨h0, h1.1, h1.2, h2⟩]]
          rw [ih, alGetD_alBump]
          by_cases hp : jsTrim (decodeMessageContent ext r.message_content r.compress_content) = p
          · simp [hp]
            omega
          · simp [hp]
        · rw [show phraseUpdate ext m r = m by
            unfold phraseUpdate; rw [if_pos h1, if_neg h2]]
          rw [show annualKey ext r = none by
            unfold annualKey; rw [if_neg (by intro hc; exact h2 hc.2.2.2)]]
          simp [ih]
      · rw [show phraseUpdate ext m r = m by unfold phraseUpdate; rw [if_neg h1]]
        rw [show annualKey ext r = none by
          unfold annualKey; rw [if_neg (by intro hc; exact h1 ⟨hc.2.1, hc.2.2.1⟩)]]
        simp [ih]

/-! Duplicate-free keys and response-sample bounds, maintained through the
whole scan. -/

/-- Key sets of the scanned maps stay duplicate-free (they are `Map`s). -/
def ScanNK (st : ScanState) : Prop :=
  NK st.midnightStats ∧ NK st.conversationStarts ∧ NK st.peakDayContacts

/-- Every recorded response sample is strictly between 0 and 86400. -/
def ValidSamples (resp : List (String × List Int)) : Prop :=
  ∀ sid l, alGet? resp sid = some l → ∀ x ∈ l, 0 < x ∧ x < 86400

theorem validSamples_alPush (resp : List (String × List Int)) (sid : String) (x : Int)
    (hx : 0 < x ∧ x < 86400) (h : ValidSamples resp) : ValidSamples (alPush resp sid x) := by
  intro k l hget y hy
  by_cases hk : sid = k
  · subst hk
    rw [alPush, alGet?_alSet_self] at hget
    injection hget with hget
    subst hget
    rw [List.mem_append] at hy
    rcases hy with hy | hy
    · rcases hget0 : alGet? resp sid with _ | l0
      · rw [alGetD, hget0] at hy
        simp at hy
      · rw [alGetD, hget0] at hy
        exact h sid l0 hget0 y hy
    · rw [List.mem_singleton] at hy
      subst hy
      exact hx
  · rw [alPush, alGet?_alSet_ne _ _ _ _ hk] at hget
    exact h k l hget y hy

theorem convUpdate_fst_NK (sid : String) (conv : List (String × Conv))
    (resp : List (String × List Int)) (last : List (String × LastMsg))
    (t : Int) (isSent : Bool) (h : NK conv) :
    NK (convUpdate sid conv resp last t isSent).1 := by
  unfold convUpdate
  have hcs0 : NK (if (alGet? conv sid).isNone then alSet conv sid ⟨0, 0⟩ else conv) := by
    split
    · exact NK_alSet _ _ _ h
    · exact h
  rcases hl : alGet? last sid with _ | lm
  · simp only
    exact NK_alSet _ _ _ hcs0
  · simp only
    split
    · exact NK_alSet _ _ _ hcs0
    · split
      · split
        · split
          · exact hcs0
          · exact hcs0
        · exact hcs0
      · exact hcs0

theorem convUpdate_snd_valid (sid : String) (conv : List (String × Conv))
    (resp : List (String × List Int)) (last : List (String × LastMsg))
    (t : Int) (isSent : Bool) (h : ValidSamples resp) :
    ValidSamples (convUpdate sid conv resp last t isSent).2 := by
  unfold convUpdate
  rcases hl : alGet? last sid with _ | lm
  · simp only
    exact h
  · simp only
    split
    · exact h
    · split
      · split
        · rename_i hrange
          split
          · rename_i hr
            exact validSamples_alPush _ _ _ hr h
          · exact h
        · exact h
      · exact h

/-- One loop row preserves the key-set and sample invariants. -/
theorem scanRowStep_inv (ext : Ext) (z : Int) (k : Option Int) (sid : String)
    (s : ScanState × StreakState) (row : Row)
    (h : ScanNK s.1 ∧ ValidSamples s.1.responseTimeStats) :
    ScanNK (scanRowStep ext z k sid s row).1 ∧
      ValidSamples (scanRowStep ext z k sid s row).1.responseTimeStats := by
  unfold scanRowStep
  split
  · exact h
  · obtain ⟨⟨hm, hc, hp⟩, hv⟩ := h
    refine ⟨⟨?_, ?_, ?_⟩, ?_⟩
    · show NK (if _ then alBump s.1.midnightStats sid else s.1.midnightStats)
      split
      · exact NK_alBump _ _ hm
      · exact hm
    · exact convUpdate_fst_NK _ _ _ _ _ _ hc
    · show NK (match k with
        | some kk => if localDayNumber z (row.create_time : Int) = kk then
            alBump s.1.peakDayContacts sid else s.1.peakDayContacts
        | none => s.1.peakDayContacts)
      rcases k with _ | kk
      · exact hp
      · simp only
        split
        · exact NK_alBump _ _ hp
        · exact hp
    · exact convUpdate_snd_valid _ _ _ _ _ _ hv

theorem scanRows_inv (ext : Ext) (z : Int) (k : Option Int) (sid : String)
    (rows : List Row) (s : ScanState × StreakState)
    (h : ScanNK s.1 ∧ ValidSamples s.1.responseTimeStats) :
    ScanNK (rows.foldl (scanRowStep ext z k sid) s).1 ∧
      ValidSamples (rows.foldl (scanRowStep ext z k sid) s).1.responseTimeStats := by
  induction rows generalizing s with
  | nil => exact h
  | cons r rest ih => exact ih _ (scanRowStep_inv ext z k sid s r h)

/-- The whole full scan preserves the key-set and sample invariants. -/
theorem fullScan_inv (ext : Ext) (z : Int) (k : Option Int)
    (sessions : List (String × List Row)) :
    ScanNK (fullScan ext z k sessions).1 ∧
      ValidSamples (fullScan ext z k sessions).1.responseTimeStats := by
  unfold fullScan
  suffices hgen : ∀ (s : ScanState × BestStreak),
      ScanNK s.1 ∧ ValidSamples s.1.responseTimeStats →
      ScanNK (sessions.foldl (scanSession ext z k) s).1 ∧
        ValidSamples (sessions.foldl (scanSession ext z k) s).1.responseTimeStats by
    refine hgen _ ⟨⟨?_, ?_, ?_⟩, ?_⟩ <;> simp [initScan, NK, ValidSamples, alGet?]
  intro s hs
  induction sessions generalizing s with
  | nil => exact hs
  | cons sess rest ih =>
    refine ih _ ?_
    show ScanNK (sess.2.foldl (scanRowStep ext z k sess.1) (s.1, initStreak)).1 ∧ _
    exact scanRows_inv ext z k sess.1 sess.2 (s.1, initStreak) hs

/-! Structural invariants of the streak fold. -/

/-- After any fold of `streakStep`: a started session has a run start, and a
positive maximum has recorded start and end days. -/
def StreakOK (s : StreakState) : Prop :=
  (s.lastDayIndex.isSome → s.currentStart.isSome) ∧
    (0 < s.maxStreak → s.maxStart.isSome ∧ s.maxEnd.isSome)

theorem streakStart_isSome (s : StreakState) (d : Int) (h : StreakOK s) :
    (streakStart s d).isSome := by
  unfold streakStart
  cases hld : s.lastDayIndex with
  | none => simp
  | some l =>
    simp only
    split
    · exact h.1 (by simp [hld])
    · simp

theorem streakStep_ok (s : StreakState) (d : Int) (h : StreakOK s) :
    StreakOK (streakStep s d) := by
  unfold streakStep
  split
  · exact h
  · have hstart := streakStart_isSome s d h
    split
    · exact ⟨fun _ => hstart, fun _ => ⟨hstart, rfl⟩⟩
    · exact ⟨fun _ => hstart, fun hm => h.2 hm⟩

theorem sessionStreak_ok (days : List Int) : StreakOK (sessionStreak days) := by
  unfold sessionStreak
  suffices hgen : ∀ (s : StreakState), StreakOK s → StreakOK (days.foldl streakStep s) by
    exact hgen initStreak ⟨by simp [initStreak], by simp [initStreak]⟩
  intro s hs
  induction days generalizing s with
  | nil => exact hs
  | cons d rest ih => exact ih _ (streakStep_ok s d hs)

/-- The structural shape of the global best after the fold, relative to any
key universe `S` containing the scanned session ids. -/
theorem bestFold_struct (l : List (String × List Int)) (b : BestStreak) (S : List String)
    (hsub : ∀ p ∈ l, p.1 ∈ S)
    (hb : b = initBest ∨ (0 < b.days ∧ b.startDay.isSome ∧ b.endDay.isSome ∧ b.sessionId ∈ S)) :
    l.foldl (fun b p => updateBest b p.1 (sessionStreak p.2)) b = initBest ∨
      (0 < (l.foldl (fun b p => updateBest b p.1 (sessionStreak p.2)) b).days ∧
        (l.foldl (fun b p => updateBest b p.1 (sessionStreak p.2)) b).startDay.isSome ∧
        (l.foldl (fun b p => updateBest b p.1 (sessionStreak p.2)) b).endDay.isSome ∧
        (l.foldl (fun b p => updateBest b p.1 (sessionStreak p.2)) b).sessionId ∈ S) := by
  induction l generalizing b with
  | nil => exact hb
  | cons sess rest ih =>
    rw [List.foldl_cons]
    refine ih (updateBest b sess.1 (sessionStreak sess.2))
      (fun p hp => hsub p (List.mem_cons_of_mem _ hp)) ?_
    unfold updateBest
    split
    · rename_i hgt
      right
      have hok := (sessionStreak_ok sess.2).2 (Nat.lt_of_le_of_lt (Nat.zero_le _) hgt)
      exact ⟨Nat.lt_of_le_of_lt (Nat.zero_le _) hgt, hok.1, hok.2, hsub sess (List.mem_cons_self _ _)⟩
    · exact hb

/-- After the global best fold: either nothing was recorded, or the best has
positive length, recorded endpoint days, and one of the scanned session
ids. -/
theorem computeLongestStreak_struct (sessions : List (String × List Int)) :
    computeLongestStreak sessions = initBest ∨
      (0 < (computeLongestStreak sessions).days ∧
        (computeLongestStreak sessions).startDay.isSome ∧
        (computeLongestStreak sessions).endDay.isSome ∧
        (computeLongestStreak sessions).sessionId ∈ sessions.map Prod.fst) := by
  exact bestFold_struct sessions initBest (sessions.map Prod.fst)
    (fun p hp => List.mem_map_of_mem Prod.fst hp) (Or.inl rfl)

/-- The structural shape, stated for the row-level streak pass. -/
theorem computeLongestStreakRows_struct (z : Int) (sessions : List (String × List Row)) :
    computeLongestStreakRows z sessions = initBest ∨
      (0 < (computeLongestStreakRows z sessions).days ∧
        (computeLongestStreakRows z sessions).startDay.isSome ∧
        (computeLongestStreakRows z sessions).endDay.isSome ∧
        (computeLongestStreakRows z sessions).sessionId ∈ sessions.map Prod.fst) := by
  rcases computeLongestStreak_struct
      (sessions.map (fun pr => (pr.1, sessionDays z pr.2))) with hs | hs
  · exact Or.inl hs
  · right
    refine ⟨hs.1, hs.2.1, hs.2.2.1, ?_⟩
    have hmem := hs.2.2.2
    rw [List.map_map] at hmem
    have hfst : (Prod.fst ∘ fun pr : String × List Row => (pr.1, sessionDays z pr.2)) =
        Prod.fst := funext (fun pr => rfl)
    rw [hfst] at hmem
    exact hmem

/-! Ranking lemmas. -/

theorem rankPhrases_sorted (n : Nat) (m : List (String × Nat)) :
    (rankPhrases n m).Pairwise (fun a b => b.2 ≤ a.2) := by
  unfold rankPhrases
  refine List.Pairwise.sublist (List.take_sublist n _) ?_
  have hs := @List.sorted_mergeSort (String × Nat)
    (fun a b : String × Nat => decide (b.2 ≤ a.2))
    (fun a b c hab hbc => by
      simp only [decide_eq_true_eq] at *
      omega)
    (fun a b => by
      rcases Nat.le_total b.2 a.2 with h | h <;> simp [h])
    (m.filter (fun e => 2 ≤ e.2))
  exact hs.imp (fun h => of_decide_eq_true h)

theorem rankPhrases_mem (n : Nat) (m : List (String × Nat)) (e : String × Nat)
    (he : e ∈ rankPhrases n m) : 2 ≤ e.2 ∧ e ∈ m := by
  unfold rankPhrases at he
  have h1 := List.mem_of_mem_take he
  rw [List.mem_mergeSort, List.mem_filter] at h1
  exact ⟨by simpa using h1.2, h1.1⟩

theorem rankPhrases_length (n : Nat) (m : List (String × Nat)) :
    (rankPhrases n m).length ≤ n := by
  unfold rankPhrases
  exact List.length_take_le n _

/-! The `updateBest` fold computes a maximum. -/

theorem updateBest_days (b : BestStreak) (sid : String) (s : StreakState) :
    (updateBest b sid s).days = max b.days s.maxStreak := by
  unfold updateBest
  split <;> rename_i h
  · show s.maxStreak = max b.days s.maxStreak
    omega
  · show b.days = max b.days s.maxStreak
    omega

theorem computeLongestStreak_days (sessions : List (String × List Int)) :
    (computeLongestStreak sessions).days =
      sessions.foldl (fun a p => max a (sessionStreak p.2).maxStreak) 0 := by
  unfold computeLongestStreak
  suffices hgen : ∀ (b : BestStreak),
      (sessions.foldl (fun b p => updateBest b p.1 (sessionStreak p.2)) b).days =
        sessions.foldl (fun a p => max a (sessionStreak p.2).maxStreak) b.days by
    exact hgen initBest
  intro b
  induction sessions generalizing b with
  | nil => rfl
  | cons sess rest ih =>
    rw [List.foldl_cons, List.foldl_cons, ih, updateBest_days]

/-- A zero-day global best is the untouched initial value. -/
theorem computeLongestStreak_days_zero (sessions : List (String × List Int))
    (h : (computeLongestStreak sessions).days = 0) :
    computeLongestStreak sessions = initBest := by
  rcases computeLongestStreak_struct sessions with hs | hs
  · exact hs
  · omega

/-- Without a known peak day the per-contact peak-day map is never touched. -/
theorem fullScan_peak_none (ext : Ext) (z : Int) (sessions : List (String × List Row)) :
    (fullScan ext z none sessions).1.peakDayContacts = [] := by
  unfold fullScan
  suffices hgen : ∀ (s : ScanState × BestStreak),
      (sessions.foldl (scanSession ext z none) s).1.peakDayContacts = s.1.peakDayContacts by
    exact hgen (initScan, initBest)
  intro s
  induction sessions generalizing s with
  | nil => rfl
  | cons sess rest ih =>
    rw [List.foldl_cons, ih]
    show (sess.2.foldl (scanRowStep ext z none sess.1) (s.1, initStreak)).1.peakDayContacts = _
    suffices hrows : ∀ (rows : List Row) (t : ScanState × StreakState),
        (rows.foldl (scanRowStep ext z none sess.1) t).1.peakDayContacts = t.1.peakDayContacts by
      exact hrows sess.2 (s.1, initStreak)
    intro rows
    induction rows with
    | nil => intro t; rfl
    | cons r rrest ihr =>
      intro t
      rw [List.foldl_cons, ihr]
      unfold scanRowStep
      split
      · rfl
      · rfl

/-! ## Claim theorems -/

/-- A concrete instance of the external codecs, used to exercise the
decoder on closed inputs: decompression always fails, UTF-8 and base64
decode to nothing. -/
def extFail : Ext := ⟨fun _ => none, fun _ => [], fun _ => []⟩

/-- A concrete instance of the external codecs whose UTF-8 decoder returns
two plain characters. -/
def extAB : Ext := ⟨fun _ => none, fun _ => ['a', 'b'], fun _ => []⟩

/-- C5: the content decoder is a total function into strings (it is defined
as one for every `RawValue` and every behaviour of the external codecs, so
it cannot raise), and every failing step yields the empty string: a
non-string value, an empty string, an empty byte buffer, and a
zstd-magic-prefixed buffer whose decompression throws all decode to `""`. -/
theorem decode_total_empty_on_failure (ext : Ext) :
    decodeMaybeCompressed ext .vother = "" ∧
    decodeMaybeCompressed ext (.vstr "") = "" ∧
    decodeBinaryContent ext [] = "" ∧
    (∀ data : List Nat, 4 ≤ data.length → readUInt32LE data = 0xFD2FB528 →
      ext.zstd data = none → decodeBinaryContent ext data = "") := by
  refine ⟨rfl, rfl, rfl, ?_⟩
  intro data hlen hmagic hz
  unfold decodeBinaryContent
  rw [if_neg (by omega), if_pos ⟨hlen, hmagic⟩, hz]

theorem decode_total_empty_on_failure_witness :
    decodeBinaryContent extFail [0x28, 0xB5, 0x2F, 0xFD, 1] = "" :=
  (decode_total_empty_on_failure extFail).2.2.2 [0x28, 0xB5, 0x2F, 0xFD, 1]
    (by decide) (by decide) rfl

/-- C6: a string that is neither hex-shaped nor base64-shaped is returned
as already-decoded text unchanged, so decoding is idempotent on its own
plain-text output. -/
theorem decode_idempotent_on_plain (ext : Ext) (s : String)
    (h1 : looksLikeHex s = false) (h2 : looksLikeBase64 s = false) :
    decodeMaybeCompressed ext (.vstr s) = s ∧
    decodeMaybeCompressed ext (.vstr (decodeMaybeCompressed ext (.vstr s))) =
      decodeMaybeCompressed ext (.vstr s) := by
  have hplain : decodeMaybeCompressed ext (.vstr s) = s := by
    show (if s = "" then ""
      else if looksLikeHex s = true ∧ (hexDecode s.data).length > 0 then
        decodeBinaryContent ext (hexDecode s.data)
      else if looksLikeBase64 s = true then decodeBinaryContent ext (ext.b64 s)
      else s) = s
    by_cases hs : s = ""
    · rw [if_pos hs, hs]
    · rw [if_neg hs, if_neg (by rw [h1]; simp), if_neg (by rw [h2]; simp)]
  exact ⟨hplain, by rw [hplain, hplain]⟩

theorem decode_idempotent_on_plain_witness :
    decodeMaybeCompressed extFail (.vstr "hello world") = "hello world" ∧
    decodeMaybeCompressed extFail
        (.vstr (decodeMaybeCompressed extFail (.vstr "hello world"))) =
      decodeMaybeCompressed extFail (.vstr "hello world") :=
  decode_idempotent_on_plain extFail "hello world" (by decide) (by decide)

/-- C10: on the direct UTF-8 path (no zstd magic), when strictly fewer than
20% of the decoded characters are U+FFFD the decoder strips every U+FFFD
from the result — so that path's output never contains a replacement
character — and when the fraction is 20% or more it instead re-decodes the
whole buffer as Latin-1.  The host's float comparison
`replacementCount < decoded.length * 0.2` is the integer comparison
`5 * replacementCount < decoded.length`. -/
theorem decode_replacement_paths (ext : Ext) (data : List Nat)
    (hne : data ≠ [])
    (hmagic : ¬(4 ≤ data.length ∧ readUInt32LE data = 0xFD2FB528)) :
    (5 * ((ext.utf8 data).filter (fun c => c = repChar)).length < (ext.utf8 data).length →
      decodeBinaryContent ext data = String.mk ((ext.utf8 data).filter (fun c => c ≠ repChar)) ∧
      repChar ∉ (decodeBinaryContent ext data).data) ∧
    (¬5 * ((ext.utf8 data).filter (fun c => c = repChar)).length < (ext.utf8 data).length →
      decodeBinaryContent ext data = String.mk (data.map (fun b => Char.ofNat (b % 256)))) := by
  have hlen : ¬data.length = 0 := by
    intro hc
    exact hne (List.length_eq_zero.mp hc)
  constructor
  · intro hfrac
    have heq : decodeBinaryContent ext data =
        String.mk ((ext.utf8 data).filter (fun c => c ≠ repChar)) := by
      unfold decodeBinaryContent
      rw [if_neg hlen, if_neg hmagic, if_pos hfrac]
    refine ⟨heq, ?_⟩
    rw [heq]
    show repChar ∉ (ext.utf8 data).filter (fun c => c ≠ repChar)
    intro hc
    rw [List.mem_filter] at hc
    simp at hc
  · intro hfrac
    unfold decodeBinaryContent
    rw [if_neg hlen, if_neg hmagic, if_neg hfrac]

theorem decode_replacement_paths_witness :
    decodeBinaryContent extAB [1, 2] = "ab" ∧
    repChar ∉ (decodeBinaryContent extAB [1, 2]).data :=
  have h := (decode_replacement_paths extAB [1, 2] (by decide) (by decide)).1 (by decide)
  ⟨h.1, h.2⟩

/-- C1: for rows delivered in ascending order, the streak update ignores a
repeated day, extends the run by one on a day exactly one greater, and
otherwise resets the run to length 1 at that day; the reported global best
is the maximum per-session run together with its session id and endpoint
days, and the 2023-01-01/02/03 + 01-10 scenario yields a best of 3 days
from 01-01 (day 19358) to 01-03 (day 19360). -/
theorem streak_accumulator_correct :
    (∀ (s : StreakState) (d : Int), s.lastDayIndex = some d → streakStep s d = s) ∧
    (∀ (s : StreakState) (last : Int), s.lastDayIndex = some last →
      (streakStep s (last + 1)).currentStreak = s.currentStreak + 1 ∧
      (streakStep s (last + 1)).currentStart = s.currentStart) ∧
    (∀ (s : StreakState) (last d : Int), s.lastDayIndex = some last → d ≠ last →
      d ≠ last + 1 →
      (streakStep s d).currentStreak = 1 ∧ (streakStep s d).currentStart = some d) ∧
    (∀ (s : StreakState) (d : Int), s.lastDayIndex = none →
      (streakStep s d).currentStreak = 1 ∧ (streakStep s d).currentStart = some d) ∧
    (∀ sessions : List (String × List Int),
      (computeLongestStreak sessions).days =
        sessions.foldl (fun a p => max a (sessionStreak p.2).maxStreak) 0) ∧
    computeLongestStreak
        [("A", [dayIndexOf 0 1672531200, dayIndexOf 0 1672617600,
                dayIndexOf 0 1672704000, dayIndexOf 0 1673308800])] =
      ⟨"A", 3, some 19358, some 19360⟩ := by
  refine ⟨?_, ?_, ?_, ?_, computeLongestStreak_days, by decide⟩
  · intro s d h
    unfold streakStep
    rw [if_pos h]
  · intro s last h
    have hne : ¬s.lastDayIndex = some (last + 1) := by
      rw [h]
      intro hc
      injection hc with hc
      omega
    have hcur : streakCur s (last + 1) = s.currentStreak + 1 := by
      unfold streakCur
      rw [h]
      simp
    have hstart : streakStart s (last + 1) = s.currentStart := by
      unfold streakStart
      rw [h]
      simp
    unfold streakStep
    rw [if_neg hne]
    split
    · exact ⟨hcur, hstart⟩
    · exact ⟨hcur, hstart⟩
  · intro s last d h hne1 hne2
    have hne : ¬s.lastDayIndex = some d := by
      rw [h]
      intro hc
      injection hc with hc
      exact hne1 hc.symm
    have hdiff : ¬d - last = 1 := by omega
    have hcur : streakCur s d = 1 := by
      unfold streakCur
      rw [h]
      simp [hdiff]
    have hstart : streakStart s d = some d := by
      unfold streakStart
      rw [h]
      simp [hdiff]
    unfold streakStep
    rw [if_neg hne]
    split
    · exact ⟨hcur, hstart⟩
    · exact ⟨hcur, hstart⟩
  · intro s d h
    have hne : ¬s.lastDayIndex = some d := by rw [h]; simp
    have hcur : streakCur s d = 1 := by unfold streakCur; rw [h]
    have hstart : streakStart s d = some d := by unfold streakStart; rw [h]
    unfold streakStep
    rw [if_neg hne]
    split
    · exact ⟨hcur, hstart⟩
    · exact ⟨hcur, hstart⟩

theorem streak_accumulator_correct_witness :
    streakStep ⟨some 5, 2, some 4, 2, some 4, some 5⟩ 5 =
      ⟨some 5, 2, some 4, 2, some 4, some 5⟩ :=
  streak_accumulator_correct.1 ⟨some 5, 2, some 4, 2, some 4, some 5⟩ 5 rfl

/-- The session conversation entry is unchanged by the has-check that
creates a zero entry before the branches. -/
theorem alGetD_ensure (conv : List (String × Conv)) (sid : String) :
    alGetD (if (alGet? conv sid).isNone then alSet conv sid ⟨0, 0⟩ else conv) sid ⟨0, 0⟩ =
      alGetD conv sid ⟨0, 0⟩ := by
  by_cases hc : (alGet? conv sid).isNone = true
  · rw [if_pos hc, alGetD, alGet?_alSet_self, Option.getD_some]
    rw [Option.isNone_iff_eq_none] at hc
    rw [alGetD, hc]
    rfl
  · rw [if_neg hc]

/-- Exhaustive case shape of the conversation / response update: either the
sample list is untouched, or one in-range peer-to-self gap was appended. -/
theorem convUpdate_snd_cases (sid : String) (conv : List (String × Conv))
    (resp : List (String × List Int)) (last : List (String × LastMsg))
    (t : Int) (isSent : Bool) :
    (convUpdate sid conv resp last t isSent).2 = resp ∨
      (∃ lm, alGet? last sid = some lm ∧ lm.isSent = false ∧ isSent = true ∧
        0 < t - (lm.time : Int) ∧ t - (lm.time : Int) < 86400 ∧
        ¬t - (lm.time : Int) > CONVERSATION_GAP ∧
        (convUpdate sid conv resp last t isSent).2 = alPush resp sid (t - (lm.time : Int))) := by
  rcases hlm : alGet? last sid with _ | lm
  · left
    simp only [convUpdate, hlm]
  · by_cases hgap : t - (lm.time : Int) > CONVERSATION_GAP
    · left
      simp only [convUpdate, hlm]
      rw [if_pos hgap]
    · by_cases hflip : lm.isSent ≠ isSent
      · by_cases hdir : isSent = true ∧ ¬lm.isSent = true
        · by_cases hrange : t - (lm.time : Int) > 0 ∧ t - (lm.time : Int) < 86400
          · right
            refine ⟨lm, rfl, by simpa using hdir.2, hdir.1, hrange.1, hrange.2, hgap, ?_⟩
            simp only [convUpdate, hlm]
            rw [if_neg hgap, if_pos hflip, if_pos hdir, if_pos hrange]
          · left
            simp only [convUpdate, hlm]
            rw [if_neg hgap, if_pos hflip, if_pos hdir, if_neg hrange]
        · left
          simp only [convUpdate, hlm]
          rw [if_neg hgap, if_pos hflip, if_neg hdir]
      · left
        simp only [convUpdate, hlm]
        rw [if_neg hgap, if_neg hflip]

/-- New-conversation shape of the conversation / response update: with no
prior message, or a gap strictly over the threshold, the sender side's
counter is incremented and no sample is recorded. -/
theorem convUpdate_newconv (sid : String) (conv : List (String × Conv))
    (resp : List (String × List Int)) (last : List (String × LastMsg))
    (t : Int) (isSent : Bool)
    (h : alGet? last sid = none ∨
      ∃ lm, alGet? last sid = some lm ∧ t - (lm.time : Int) > CONVERSATION_GAP) :
    (convUpdate sid conv resp last t isSent).2 = resp ∧
      alGetD (convUpdate sid conv resp last t isSent).1 sid ⟨0, 0⟩ =
        (if isSent then
          (⟨(alGetD conv sid ⟨0, 0⟩).initiated + 1, (alGetD conv sid ⟨0, 0⟩).received⟩ : Conv)
        else
          (⟨(alGetD conv sid ⟨0, 0⟩).initiated, (alGetD conv sid ⟨0, 0⟩).received + 1⟩ : Conv)) := by
  have hred : convUpdate sid conv resp last t isSent =
      (alSet (if (alGet? conv sid).isNone then alSet conv sid ⟨0, 0⟩ else conv) sid
        (if isSent then
          (⟨(alGetD (if (alGet? conv sid).isNone then alSet conv sid ⟨0, 0⟩ else conv) sid ⟨0, 0⟩).initiated + 1,
            (alGetD (if (alGet? conv sid).isNone then alSet conv sid ⟨0, 0⟩ else conv) sid ⟨0, 0⟩).received⟩ : Conv)
        else
          (⟨(alGetD (if (alGet? conv sid).isNone then alSet conv sid ⟨0, 0⟩ else conv) sid ⟨0, 0⟩).initiated,
            (alGetD (if (alGet? conv sid).isNone then alSet conv sid ⟨0, 0⟩ else conv) sid ⟨0, 0⟩).received + 1⟩ : Conv)),
        resp) := by
    rcases h with hnone | ⟨lm, hlm, hgap⟩
    · simp only [convUpdate, hnone]
    · simp only [convUpdate, hlm]
      rw [if_pos hgap]
  rw [hred]
  refine ⟨rfl, ?_⟩
  show alGetD (alSet _ sid _) sid (⟨0, 0⟩ : Conv) = _
  rw [alGetD, alGet?_alSet_self, Option.getD_some, alGetD_ensure conv sid]


/-- C3 counterexample: a message exactly 3600 seconds after a peer message,
sent by self, is NOT classified as a new conversation start (the counters
are unchanged) and DOES record a response sample of 3600 seconds. -/
theorem conversation_gap_exact_counterexample :
    (convUpdate "A" [("A", ⟨0, 1⟩)] [] [("A", ⟨1000, false⟩)] 4600 true).1 =
      [("A", ⟨0, 1⟩)] ∧
    (convUpdate "A" [("A", ⟨0, 1⟩)] [] [("A", ⟨1000, false⟩)] 4600 true).2 =
      [("A", [3600])] := by
  constructor <;> rfl

/-- C3 (amended): a gap strictly greater than 3600 seconds — or the absence
of any prior message — classifies the message as a new conversation start
attributed to the sender's side and records no response sample; a gap of
exactly 3600 seconds stays inside the conversation. -/
theorem conversation_gap_strict (sid : String) (conv : List (String × Conv))
    (resp : List (String × List Int)) (last : List (String × LastMsg))
    (t : Int) (isSent : Bool) :
    (∀ lm, alGet? last sid = some lm → t - (lm.time : Int) > 3600 →
      (convUpdate sid conv resp last t isSent).2 = resp ∧
      alGetD (convUpdate sid conv resp last t isSent).1 sid ⟨0, 0⟩ =
        (if isSent then
          (⟨(alGetD conv sid ⟨0, 0⟩).initiated + 1, (alGetD conv sid ⟨0, 0⟩).received⟩ : Conv)
        else
          (⟨(alGetD conv sid ⟨0, 0⟩).initiated, (alGetD conv sid ⟨0, 0⟩).received + 1⟩ : Conv))) ∧
    (alGet? last sid = none →
      (convUpdate sid conv resp last t isSent).2 = resp ∧
      alGetD (convUpdate sid conv resp last t isSent).1 sid ⟨0, 0⟩ =
        (if isSent then
          (⟨(alGetD conv sid ⟨0, 0⟩).initiated + 1, (alGetD conv sid ⟨0, 0⟩).received⟩ : Conv)
        else
          (⟨(alGetD conv sid ⟨0, 0⟩).initiated, (alGetD conv sid ⟨0, 0⟩).received + 1⟩ : Conv))) := by
  constructor
  · intro lm hlm hgap
    exact convUpdate_newconv sid conv resp last t isSent (Or.inr ⟨lm, hlm, hgap⟩)
  · intro hlm
    exact convUpdate_newconv sid conv resp last t isSent (Or.inl hlm)

theorem conversation_gap_strict_witness :
    (convUpdate "A" [] [] [("A", ⟨1000, false⟩)] 4601 true).2 = [] ∧
    alGetD (convUpdate "A" [] [] [("A", ⟨1000, false⟩)] 4601 true).1 "A" ⟨0, 0⟩ =
      ⟨1, 0⟩ := by
  have h := (conversation_gap_strict "A" [] [] [("A", ⟨1000, false⟩)] 4601 true).1
    ⟨1000, false⟩ rfl (by norm_num)
  refine ⟨h.1, ?_⟩
  rw [h.2]
  rfl

/-- C4: every response sample ever recorded by the scan is strictly between
0 and 86400 seconds, and the sample list changes only when the previous
message of the session was sent by the peer and the current one by self
(the recorded sample then being their positive sub-86400 gap). -/
theorem response_sample_invariant :
    (∀ (ext : Ext) (z : Int) (k : Option Int) (sessions : List (String × List Row)),
      ValidSamples (fullScan ext z k sessions).1.responseTimeStats) ∧
    (∀ (sid : String) (conv : List (String × Conv)) (resp : List (String × List Int))
        (last : List (String × LastMsg)) (t : Int) (isSent : Bool),
      (convUpdate sid conv resp last t isSent).2 ≠ resp →
      ∃ lm, alGet? last sid = some lm ∧ lm.isSent = false ∧ isSent = true ∧
        0 < t - (lm.time : Int) ∧ t - (lm.time : Int) < 86400 ∧
        (convUpdate sid conv resp last t isSent).2 =
          alPush resp sid (t - (lm.time : Int))) := by
  constructor
  · intro ext z k sessions
    exact (fullScan_inv ext z k sessions).2
  · intro sid conv resp last t isSent hne
    rcases convUpdate_snd_cases sid conv resp last t isSent with h | h
    · exact absurd h hne
    · obtain ⟨lm, h1, h2, h3, h4, h5, _, h7⟩ := h
      exact ⟨lm, h1, h2, h3, h4, h5, h7⟩

theorem response_sample_invariant_witness :
    ∃ lm, alGet? [("A", (⟨1000, false⟩ : LastMsg))] "A" = some lm ∧
      lm.isSent = false ∧ true = true ∧
      0 < (1500 : Int) - (lm.time : Int) ∧ (1500 : Int) - (lm.time : Int) < 86400 ∧
      (convUpdate "A" [] [] [("A", ⟨1000, false⟩)] 1500 true).2 =
        alPush [] "A" ((1500 : Int) - (lm.time : Int)) :=
  response_sample_invariant.2 "A" [] [] [("A", ⟨1000, false⟩)] 1500 true (by decide)

/-- C7 counterexample: with valid credentials and a successful store open
but zero enumerated sessions, report generation returns a failure value
carrying the error string (and not a success-shaped "no data" result). -/
theorem zero_sessions_counterexample :
    reportEntryError "wxid_a" "p" "k" true [] = some "未找到消息会话" ∧
    (reportEntryError "wxid_a" "p" "k" true []).isSome = true := by
  constructor <;> rfl

/-- C7 (amended): when session enumeration yields zero sessions, annual
report generation fails with the dedicated error message `未找到消息会话`,
distinguishable from the configuration errors; missing wechat id, store
path or key, and a failed store open, each produce their own failure; with
sessions present and a valid configuration no entry failure occurs. -/
theorem report_entry_failures (wxid dbPath key : String) (openOk : Bool)
    (sids : List String) :
    (wxid ≠ "" → dbPath ≠ "" → key ≠ "" → openOk = true → sids = [] →
      reportEntryError wxid dbPath key openOk sids = some "未找到消息会话") ∧
    (wxid = "" → reportEntryError wxid dbPath key openOk sids = some "未配置微信ID") ∧
    (wxid ≠ "" → dbPath = "" →
      reportEntryError wxid dbPath key openOk sids = some "未配置数据库路径") ∧
    (wxid ≠ "" → dbPath ≠ "" → key = "" →
      reportEntryError wxid dbPath key openOk sids = some "未配置解密密钥") ∧
    (wxid ≠ "" → dbPath ≠ "" → key ≠ "" → openOk = false →
      reportEntryError wxid dbPath key openOk sids = some "WCDB 打开失败") ∧
    (wxid ≠ "" → dbPath ≠ "" → key ≠ "" → openOk = true → sids ≠ [] →
      reportEntryError wxid dbPath key openOk sids = none) := by
  refine ⟨?_, ?_, ?_, ?_, ?_, ?_⟩
  · intro h1 h2 h3 h4 h5
    unfold reportEntryError
    rw [if_neg h1, if_neg h2, if_neg h3, if_neg (by rw [h4]; simp), if_pos h5]
  · intro h1
    unfold reportEntryError
    rw [if_pos h1]
  · intro h1 h2
    unfold reportEntryError
    rw [if_neg h1, if_pos h2]
  · intro h1 h2 h3
    unfold reportEntryError
    rw [if_neg h1, if_neg h2, if_pos h3]
  · intro h1 h2 h3 h4
    unfold reportEntryError
    rw [if_neg h1, if_neg h2, if_neg h3, if_pos (by rw [h4]; simp)]
  · intro h1 h2 h3 h4 h5
    unfold reportEntryError
    rw [if_neg h1, if_neg h2, if_neg h3, if_neg (by rw [h4]; simp), if_neg h5]

theorem report_entry_failures_witness :
    reportEntryError "wxid_a" "p" "k" true [] = some "未找到消息会话" :=
  (report_entry_failures "wxid_a" "p" "k" true []).1
    (by decide) (by decide) (by decide) rfl rfl

/-- C8: in the full-scan path each row with a decodable (nonzero) timestamp
increments exactly one heatmap cell, so the sum of all 7×24 cells equals
the number of such rows across all sessions; the cell's row index maps
`getDay` so that Monday (`getDay = 1`) is 0 and Sunday (`getDay = 0`) is
6. -/
theorem heatmap_sum_invariant :
    (∀ (ext : Ext) (z : Int) (k : Option Int) (sessions : List (String × List Row)),
      sumHeat (fullScan ext z k sessions).1.heatmap =
        ((sessions.map Prod.snd).flatten.filter (fun r => r.create_time ≠ 0)).length) ∧
    (∀ (hm : Heatmap) (w : Fin 7) (h : Fin 24), sumHeat (bumpHeat hm w h) = sumHeat hm + 1) ∧
    (∀ z t : Int, weekdayIndexZ z t = (jsGetDay z t + 6) % 7) ∧
    (∀ z t : Int, jsGetDay z t = 1 → weekdayIndexZ z t = 0) ∧
    (∀ z t : Int, jsGetDay z t = 0 → weekdayIndexZ z t = 6) := by
  refine ⟨?_, sumHeat_bumpHeat, ?_, ?_, ?_⟩
  · intro ext z k sessions
    show sumHeat (sessions.foldl (scanSession ext z k) (initScan, initBest)).1.heatmap = _
    rw [fullScan_heat_general, sumHeat_heatRows]
    have h0 : sumHeat initScan.heatmap = 0 := by
      unfold sumHeat initScan zeroHeat
      simp
    rw [h0]
    omega
  · intro z t
    have h0 := jsGetDay_nonneg z t
    have h7 := jsGetDay_lt z t
    unfold weekdayIndexZ
    split
    · rename_i h
      rw [h]
      decide
    · rename_i h
      omega
  · intro z t h
    unfold weekdayIndexZ
    rw [h]
    rfl
  · intro z t h
    unfold weekdayIndexZ
    rw [h]
    rfl

theorem heatmap_sum_invariant_witness :
    weekdayIndexZ 0 1672617600 = 0 :=
  heatmap_sum_invariant.2.2.2.1 0 1672617600 (by decide)

/-- The extracted phrase key of one dual-report row: `some normalized`
exactly when the dual loop tallies the row (both sides are eligible — the
sender flag is not consulted). -/
def dualKey (ext : Ext) (row : Row) : Option String :=
  if (row.localType = 1 ∨ row.localType = bigTextType) ∧
      0 < (jsTrim (decodeMessageContent ext row.message_content row.compress_content)).length ∧
      eligibleDual (normalizeDual (jsTrim (decodeMessageContent ext row.message_content row.compress_content))) then
    some (normalizeDual (jsTrim (decodeMessageContent ext row.message_content row.compress_content)))
  else none

theorem dualWords_count (ext : Ext) (rows : List Row) (m : List (String × Nat)) (p : String) :
    alGetD (rows.foldl (dualWordStep ext) m) p 0 =
      alGetD m p 0 + (rows.filter (fun r => dualKey ext r = some p)).length := by
  induction rows generalizing m with
  | nil => simp
  | cons r rest ih =>
    rw [List.foldl_cons, List.filter_cons]
    by_cases h1 : r.localType = 1 ∨ r.localType = bigTextType
    · by_cases h2 : 0 <
          (jsTrim (decodeMessageContent ext r.message_content r.compress_content)).length
      · by_cases h3 : eligibleDual
            (normalizeDual (jsTrim (decodeMessageContent ext r.message_content r.compress_content)))
        · rw [show dualWordStep ext m r =
              alBump m (normalizeDual
                (jsTrim (decodeMessageContent ext r.message_content r.compress_content))) by
            unfold dualWordStep
            rw [if_pos h1, if_pos (by simpa using h2), if_pos h3]]
          rw [show dualKey ext r = some (normalizeDual
              (jsTrim (decodeMessageContent ext r.message_content r.compress_content))) by
            unfold dualKey
            rw [if_pos ⟨h1, h2, h3⟩]]
          rw [ih, alGetD_alBump]
          by_cases hp : normalizeDual
              (jsTrim (decodeMessageContent ext r.message_content r.compress_content)) = p
          · simp [hp]
            omega
          · simp [hp]
        · rw [show dualWordStep ext m r = m by
            unfold dualWordStep
            rw [if_pos h1, if_pos (by simpa using h2), if_neg h3]]
          rw [show dualKey ext r = none by
            unfold dualKey
            rw [if_neg (by intro hc; exact h3 hc.2.2)]]
          simp [ih]
      · rw [show dualWordStep ext m r = m by
          unfold dualWordStep
          rw [if_pos h1, if_neg (by simpa using h2)]]
        rw [show dualKey ext r = none by
          unfold dualKey
          rw [if_neg (by intro hc; exact h2 hc.2.1)]]
        simp [ih]
    · rw [show dualWordStep ext m r = m by unfold dualWordStep; rw [if_neg h1]]
      rw [show dualKey ext r = none by
        unfold dualKey
        rw [if_neg (by intro hc; exact h1 hc.1)]]
      simp [ih]

/-- The dual report's final word-cloud ranking (lines 430-434). -/
def dualTopPhrases (ext : Ext) (rows : List Row) : List (String × Nat) :=
  rankPhrases 50 (dualWordMap ext rows)

/-- A concrete self-sent plain-text row carrying "hello world". -/
def hwRow : Row := ⟨1000, true, 1, .vstr "hello world", .vother⟩

/-- C9: the annual tally counts exactly the self-sent text rows whose
trimmed text has length in [2, 20] and passes the content filters, the dual
tally counts both sides' text rows whose normalized text has length in
[2, 50] with the same filters, and the final ranking keeps only counts ≥ 2
from the tally, sorted descending by count and truncated to the top 32
(annual) or 50 (dual). -/
theorem phrase_filter_and_ranking :
    (∀ (ext : Ext) (z : Int) (k : Option Int) (sessions : List (String × List Row)) (p : String),
      alGetD (fullScan ext z k sessions).1.phraseCount p 0 =
        ((sessions.map Prod.snd).flatten.filter (fun r => annualKey ext r = some p)).length) ∧
    (∀ (ext : Ext) (row : Row) (p : String), annualKey ext row = some p →
      row.isSent = true ∧ (row.localType = 1 ∨ row.localType = bigTextType) ∧
      p = jsTrim (decodeMessageContent ext row.message_content row.compress_content) ∧
      eligibleAnnual p = true) ∧
    (∀ p : String, eligibleAnnual p = true ↔
      (2 ≤ p.length ∧ p.length ≤ 20 ∧ hasSubstr p "http" = false ∧
        p.data.contains '<' = false ∧ strStartsWith p "[" = false ∧
        strStartsWith p "<?xml" = false)) ∧
    (∀ (ext : Ext) (rows : List Row) (p : String),
      alGetD (dualWordMap ext rows) p 0 =
        (rows.filter (fun r => dualKey ext r = some p)).length) ∧
    (∀ (ext : Ext) (row : Row) (b : Bool),
      dualKey ext ⟨row.create_time, b, row.localType, row.message_content, row.compress_content⟩ =
        dualKey ext row) ∧
    (∀ p : String, eligibleDual p = true ↔
      (2 ≤ p.length ∧ p.length ≤ 50 ∧ hasSubstr p "http" = false ∧
        p.data.contains '<' = false ∧ strStartsWith p "[" = false ∧
        strStartsWith p "<?xml" = false)) ∧
    (∀ (n : Nat) (m : List (String × Nat)),
      (rankPhrases n m).length ≤ n ∧
      (rankPhrases n m).Pairwise (fun a b => b.2 ≤ a.2) ∧
      (∀ e ∈ rankPhrases n m, 2 ≤ e.2 ∧ e ∈ m)) := by
  refine ⟨?_, ?_, ?_, ?_, ?_, ?_, ?_⟩
  · intro ext z k sessions p
    show alGetD (sessions.foldl (scanSession ext z k) (initScan, initBest)).1.phraseCount p 0 = _
    rw [fullScan_phrase_general, phraseRows_count]
    have h0 : alGetD initScan.phraseCount p 0 = 0 := rfl
    omega
  · intro ext row p h
    unfold annualKey at h
    by_cases hc : row.create_time ≠ 0 ∧ (row.localType = 1 ∨ row.localType = bigTextType) ∧
        row.isSent = true ∧ eligibleAnnual
          (jsTrim (decodeMessageContent ext row.message_content row.compress_content)) = true
    · rw [if_pos hc] at h
      injection h with h
      exact ⟨hc.2.2.1, hc.2.1, h.symm, h ▸ hc.2.2.2⟩
    · rw [if_neg hc] at h
      exact absurd h (by simp)
  · intro p
    unfold eligibleAnnual
    simp [Bool.and_eq_true, Bool.not_eq_true', and_assoc]
  · intro ext rows p
    unfold dualWordMap
    rw [dualWords_count]
    have h0 : alGetD ([] : List (String × Nat)) p 0 = 0 := rfl
    omega
  · intro ext row b
    rfl
  · intro p
    unfold eligibleDual
    simp [Bool.and_eq_true, Bool.not_eq_true', and_assoc]
  · intro n m
    exact ⟨rankPhrases_length n m, rankPhrases_sorted n m,
      fun e he => rankPhrases_mem n m e he⟩

theorem phrase_filter_and_ranking_witness :
    alGetD (fullScan extFail 0 none [("A", [hwRow, hwRow])]).1.phraseCount "hello world" 0 = 2 ∧
    hwRow.isSent = true := by
  constructor
  · rw [phrase_filter_and_ranking.1 extFail 0 none [("A", [hwRow, hwRow])] "hello world"]
    decide
  · exact (phrase_filter_and_ranking.2.1 extFail hwRow "hello world" (by decide)).1

/-! Reduction shapes of the fast path. -/

theorem orchestrate_streak_some (ext : Ext) (z : Int) (k : Option Int)
    (sessions : List (String × List Row)) (p : ExtrasPayload) (sp : StreakPayload)
    (hsp : p.streak = some sp) :
    (orchestrate ext z k (some p) sessions).streak =
      (if (if sp.sessionId ≠ "" ∧ 0 < sp.days ∧ sp.startDate.isSome ∧ sp.endDate.isSome then
            true else false) = true then
        (if sp.sessionId ≠ "" ∧ 0 < sp.days then
          (⟨sp.sessionId, sp.days, sp.startDate, sp.endDate⟩ : BestStreak)
        else initBest)
      else if (computeLongestStreakRows z sessions).days >
          (if sp.sessionId ≠ "" ∧ 0 < sp.days then
            (⟨sp.sessionId, sp.days, sp.startDate, sp.endDate⟩ : BestStreak)
          else initBest).days then
        computeLongestStreakRows z sessions
      else
        (if sp.sessionId ≠ "" ∧ 0 < sp.days then
          (⟨sp.sessionId, sp.days, sp.startDate, sp.endDate⟩ : BestStreak)
        else initBest)) := by
  simp only [orchestrate, hsp]

theorem orchestrate_phrases_some (ext : Ext) (z : Int) (k : Option Int)
    (sessions : List (String × List Row)) (p : ExtrasPayload) (TP : List (String × Nat))
    (htp : p.topPhrases = some TP) :
    (orchestrate ext z k (some p) sessions).phrasesFromSql =
      (if TP.isEmpty then none else some TP) := by
  simp only [orchestrate, htp]

theorem nonempty_isEmpty_false {V : Type} (l : List V) (h : l ≠ []) :
    l.isEmpty = false := by
  cases l with
  | nil => exact absurd rfl h
  | cons a t => rfl

/-- C2: when the bulk extras call succeeds with a complete payload, every
accumulator output of the report core (heatmap, midnight map, conversation
map, response stats, peak-day breakdown, top phrases, best streak) is the
payload's value verbatim and neither per-message scan runs; when the call
fails, the full per-message scan runs and supplies every output; and over
the same dataset the failure-path core agrees with the success-path core
built from the correct payload of that dataset on every listed accumulator
output, so the assembled report has the same shape either way. -/
theorem fast_path_verbatim_and_fallback :
    (∀ (ext : Ext) (z kk : Int) (sessions : List (String × List Row)) (p : ExtrasPayload)
        (H : Heatmap) (M : List (String × Nat)) (C : List (String × Conv))
        (R : List (String × RespStat)) (PD TP : List (String × Nat)) (sp : StreakPayload),
      p.heatmap = some H → p.midnight = some M → NK M →
      p.conversation = some C → NK C → p.response = some R →
      p.peakDay = some PD → NK PD → PD ≠ [] →
      p.topPhrases = some TP → TP ≠ [] →
      p.streak = some sp → sp.sessionId ≠ "" → 0 < sp.days →
      sp.startDate.isSome → sp.endDate.isSome →
      orchestrate ext z (some kk) (some p) sessions =
        ⟨H, M, C, some R, [], some PD, some TP, [],
          ⟨sp.sessionId, sp.days, sp.startDate, sp.endDate⟩, false, false⟩ ∧
      finalTopPhrases (orchestrate ext z (some kk) (some p) sessions) = TP) ∧
    (∀ (ext : Ext) (z : Int) (k : Option Int) (sessions : List (String × List Row)),
      (orchestrate ext z k none sessions).fullScanRan = true ∧
      (orchestrate ext z k none sessions).heatmap = (fullScan ext z k sessions).1.heatmap ∧
      (orchestrate ext z k none sessions).midnightStats =
        (fullScan ext z k sessions).1.midnightStats ∧
      (orchestrate ext z k none sessions).conversationStarts =
        (fullScan ext z k sessions).1.conversationStarts ∧
      (orchestrate ext z k none sessions).responseTimeStats =
        (fullScan ext z k sessions).1.responseTimeStats ∧
      (orchestrate ext z k none sessions).peakDayCounts =
        (if (fullScan ext z k sessions).1.peakDayContacts.isEmpty then none
         else some (fullScan ext z k sessions).1.peakDayContacts) ∧
      (orchestrate ext z k none sessions).phraseMap = (fullScan ext z k sessions).1.phraseCount ∧
      (orchestrate ext z k none sessions).streak = (fullScan ext z k sessions).2) ∧
    (∀ (ext : Ext) (z : Int) (k : Option Int) (sessions : List (String × List Row)),
      (∀ pr ∈ sessions, pr.1 ≠ "") →
      (orchestrate ext z k (some (correctPayload ext z k sessions)) sessions).heatmap =
        (orchestrate ext z k none sessions).heatmap ∧
      (orchestrate ext z k (some (correctPayload ext z k sessions)) sessions).midnightStats =
        (orchestrate ext z k none sessions).midnightStats ∧
      (orchestrate ext z k (some (correctPayload ext z k sessions)) sessions).conversationStarts =
        (orchestrate ext z k none sessions).conversationStarts ∧
      (orchestrate ext z k (some (correctPayload ext z k sessions)) sessions).peakDayCounts =
        (orchestrate ext z k none sessions).peakDayCounts ∧
      finalTopPhrases (orchestrate ext z k (some (correctPayload ext z k sessions)) sessions) =
        finalTopPhrases (orchestrate ext z k none sessions) ∧
      (orchestrate ext z k (some (correctPayload ext z k sessions)) sessions).streak =
        (orchestrate ext z k none sessions).streak) := by
  refine ⟨?_, ?_, ?_⟩
  · intro ext z kk sessions p H M C R PD TP sp
    intro hH hM hMn hC hCn hR hPD hPDn hPDne hTP hTPne hsp hid hdays hsd hed
    have hPDe : PD.isEmpty = false := nonempty_isEmpty_false PD hPDne
    have hTPe : TP.isEmpty = false := nonempty_isEmpty_false TP hTPne
    have hred : orchestrate ext z (some kk) (some p) sessions =
        ⟨H, M, C, some R, [], some PD, some TP, [],
          ⟨sp.sessionId, sp.days, sp.startDate, sp.endDate⟩, false, false⟩ := by
      simp only [orchestrate, hH, hM, hC, hR, hPD, hTP, hsp]
      rw [copyAL_of_NK M hMn, copyAL_of_NK C hCn, copyAL_of_NK PD hPDn]
      have hcond1 : sp.sessionId ≠ "" ∧ 0 < sp.days := ⟨hid, hdays⟩
      have hcond2 : sp.sessionId ≠ "" ∧ 0 < sp.days ∧ sp.startDate.isSome = true ∧
          sp.endDate.isSome = true := ⟨hid, hdays, hsd, hed⟩
      rw [if_pos hcond2, if_pos hcond1, hPDe, hTPe]
      rfl
    exact ⟨hred, by rw [hred]; rfl⟩
  · intro ext z k sessions
    exact ⟨rfl, rfl, rfl, rfl, rfl, rfl, rfl, rfl⟩
  · intro ext z k sessions hsid
    obtain ⟨⟨hNKm, hNKc, hNKp⟩, _⟩ := fullScan_inv ext z k sessions
    refine ⟨rfl, ?_, ?_, ?_, ?_, ?_⟩
    · exact copyAL_of_NK _ hNKm
    · exact copyAL_of_NK _ hNKc
    · cases k with
      | none =>
        show none = (if (fullScan ext z none sessions).1.peakDayContacts.isEmpty then none
          else some (fullScan ext z none sessions).1.peakDayContacts)
        rw [fullScan_peak_none]
        rfl
      | some kk =>
        show (if (copyAL (fullScan ext z (some kk) sessions).1.peakDayContacts).isEmpty then none
            else some (copyAL (fullScan ext z (some kk) sessions).1.peakDayContacts)) = _
        rw [copyAL_of_NK _ hNKp]
        rfl
    · have hfast := orchestrate_phrases_some ext z k sessions
        (correctPayload ext z k sessions) (rankPhrases 32 (fullScan ext z k sessions).1.phraseCount) rfl
      unfold finalTopPhrases
      rw [hfast]
      by_cases hre : rankPhrases 32 (fullScan ext z k sessions).1.phraseCount = []
      · rw [hre]
        show rankPhrases 32 ([] : List (String × Nat)) =
          rankPhrases 32 (fullScan ext z k sessions).1.phraseCount
        rw [hre]
        simp [rankPhrases]
      · rw [nonempty_isEmpty_false _ hre]
        rfl
    · have hB := fullScan_streak ext z k sessions
      have hred := orchestrate_streak_some ext z k sessions (correctPayload ext z k sessions)
        ⟨(fullScan ext z k sessions).2.sessionId, (fullScan ext z k sessions).2.days,
          (fullScan ext z k sessions).2.startDay, (fullScan ext z k sessions).2.endDay⟩ rfl
      rw [hred]
      show _ = (fullScan ext z k sessions).2
      rw [hB]
      dsimp only
      by_cases hdz : (computeLongestStreakRows z sessions).days = 0
      · have hBinit : computeLongestStreakRows z sessions = initBest :=
          computeLongestStreak_days_zero _ hdz
        have hc1 : ¬((computeLongestStreakRows z sessions).sessionId ≠ "" ∧
            0 < (computeLongestStreakRows z sessions).days) := by
          intro hc
          omega
        have hc2 : ¬((computeLongestStreakRows z sessions).sessionId ≠ "" ∧
            0 < (computeLongestStreakRows z sessions).days ∧
            (computeLongestStreakRows z sessions).startDay.isSome = true ∧
            (computeLongestStreakRows z sessions).endDay.isSome = true) := by
          intro hc
          omega
        rw [if_neg hc2, if_neg hc1]
        rw [if_neg Bool.false_ne_true]
        rw [if_neg (show ¬(computeLongestStreakRows z sessions).days > initBest.days by
          have h0 : initBest.days = 0 := rfl
          omega)]
        exact hBinit.symm
      · rcases computeLongestStreakRows_struct z sessions with hs | hs
        · refine absurd ?_ hdz
          rw [hs]
          rfl
        · have hBd : 0 < (computeLongestStreakRows z sessions).days := hs.1
          have hBs : (computeLongestStreakRows z sessions).startDay.isSome = true := hs.2.1
          have hBe : (computeLongestStreakRows z sessions).endDay.isSome = true := hs.2.2.1
          have hBid : (computeLongestStreakRows z sessions).sessionId ≠ "" := by
            rw [List.mem_map] at hs
            obtain ⟨pr, hpr, hpe⟩ := hs.2.2.2
            intro hc
            exact hsid pr hpr (by rw [hpe]; exact hc)
          have hcond1 : (computeLongestStreakRows z sessions).sessionId ≠ "" ∧
              0 < (computeLongestStreakRows z sessions).days := ⟨hBid, hBd⟩
          have hcond2 : (computeLongestStreakRows z sessions).sessionId ≠ "" ∧
              0 < (computeLongestStreakRows z sessions).days ∧
              (computeLongestStreakRows z sessions).startDay.isSome = true ∧
              (computeLongestStreakRows z sessions).endDay.isSome = true :=
            ⟨hBid, hBd, hBs, hBe⟩
          rw [if_pos hcond2, if_pos hcond1]
          rfl

/-- A concrete complete extras payload, used to exercise the fast path. -/
def pW : ExtrasPayload :=
  ⟨some zeroHeat, some [("A", 1)], some [("A", ⟨1, 0⟩)], some [("A", ⟨5, 1⟩)],
    some [("A", 2)], some [("hi", 2)], some ⟨"A", 2, some 0, some 1⟩⟩

theorem fast_path_verbatim_and_fallback_witness :
    orchestrate extFail 0 (some 0) (some pW) [] =
      ⟨zeroHeat, [("A", 1)], [("A", ⟨1, 0⟩)], some [("A", ⟨5, 1⟩)], [], some [("A", 2)],
        some [("hi", 2)], [], ⟨"A", 2, some 0, some 1⟩, false, false⟩ ∧
    finalTopPhrases (orchestrate extFail 0 (some 0) (some pW) []) = [("hi", 2)] :=
  fast_path_verbatim_and_fallback.1 extFail 0 0 [] pW zeroHeat [("A", 1)] [("A", ⟨1, 0⟩)]
    [("A", ⟨5, 1⟩)] [("A", 2)] [("hi", 2)] ⟨"A", 2, some 0, some 1⟩
    rfl rfl (by unfold NK; decide) rfl (by unfold NK; decide) rfl rfl
    (by unfold NK; decide) (by decide) rfl (by decide) rfl (by decide) (by decide) rfl rfl

end WeFlow
